import Mathlib

/-!
# coyim MUC: occupant model, room lobby and room creation

A shallow embedding of `session/muc/occupant.go`, `gui/muc_room_lobby.go` and
`gui/muc_create_room.go`, followed by the properties established about them.

Conventions of the embedding:

* a Go interface or pointer value that may be `nil` is an `Option`;
* a method with a pointer receiver is a function from the receiver's state to
  its new state;
* calls into collaborators (the XMPP session, GTK widgets) are recorded in
  trace fields of the state, in call order;
* goroutines are program counters of a labelled transition system whose
  labels are the scheduling choices (which `select` branch fires, which value
  the transport delivers).
-/

namespace Coyim

/-! ## Collaborator types -/

namespace jid

/-- Modelled from the spec: `jid.Bare` (package `xmpp/jid`), the RoomIdentifier,
"opaque, comparable value identifying a room on the chat service". -/
structure Bare where
  repr : String
  deriving DecidableEq, Repr

/-- Modelled from the spec: `jid.Full` (package `xmpp/jid`), the "full real
identity" of an occupant, an opaque comparable value. -/
structure Full where
  repr : String
  deriving DecidableEq, Repr

end jid

namespace data

/-- Modelled from the spec: `data.Affiliation` (package `session/muc/data`),
the closed enumeration `None | Outcast | Member | Admin | Owner`; each
constructor stands for the value `&data.XAffiliation{}`. -/
inductive Affiliation where
  | NoneAffiliation
  | OutcastAffiliation
  | MemberAffiliation
  | AdminAffiliation
  | OwnerAffiliation
  deriving DecidableEq, Repr

/-- Modelled from the spec: `data.Role` (package `session/muc/data`), the
closed enumeration `None | Visitor | Participant | Moderator`; each
constructor stands for the value `&data.XRole{}`. -/
inductive Role where
  | NoneRole
  | VisitorRole
  | ParticipantRole
  | ModeratorRole
  deriving DecidableEq, Repr

end data

namespace roster

/-- Modelled from the spec: `roster.Status` (package `roster`), "a short status
code plus free-text status message". -/
structure Status where
  Status : String
  StatusMsg : String
  deriving DecidableEq, Repr

end roster

/-! ## `session/muc/occupant.go` -/

namespace muc

/-- The struct `Occupant`. The interface-typed fields `RealJid`, `Affiliation`,
`Role` and the pointer `Status` are `none` when the Go value is `nil`. -/
structure Occupant where
  Nickname : String
  RealJid : Option jid.Full
  Affiliation : Option data.Affiliation
  Role : Option data.Role
  Status : Option roster.Status
  deriving DecidableEq, Repr

namespace Occupant

/-- Go `ChangeRoleToNone` : `o.Role = &data.NoneRole{}`. -/
def ChangeRoleToNone (o : Occupant) : Occupant :=
  { o with Role := some data.Role.NoneRole }

/-- Go `ChangeRoleToVisitor` : `o.Role = &data.VisitorRole{}`. -/
def ChangeRoleToVisitor (o : Occupant) : Occupant :=
  { o with Role := some data.Role.VisitorRole }

/-- Go `ChangeRoleToParticipant` : `o.Role = &data.ParticipantRole{}`. -/
def ChangeRoleToParticipant (o : Occupant) : Occupant :=
  { o with Role := some data.Role.ParticipantRole }

/-- Go `ChangeRoleToModerator` : `o.Role = &data.ModeratorRole{}`. -/
def ChangeRoleToModerator (o : Occupant) : Occupant :=
  { o with Role := some data.Role.ModeratorRole }

/-- Go `ChangeAffiliationToNone` : `o.Affiliation = &data.NoneAffiliation{}`. -/
def ChangeAffiliationToNone (o : Occupant) : Occupant :=
  { o with Affiliation := some data.Affiliation.NoneAffiliation }

/-- Go `ChangeAffiliationToOutcast` : `o.Affiliation = &data.OutcastAffiliation{}`. -/
def ChangeAffiliationToOutcast (o : Occupant) : Occupant :=
  { o with Affiliation := some data.Affiliation.OutcastAffiliation }

/-- Go `Ban` : calls `o.ChangeAffiliationToOutcast()`. -/
def Ban (o : Occupant) : Occupant :=
  o.ChangeAffiliationToOutcast

/-- Go `ChangeAffiliationToMember` : `o.Affiliation = &data.MemberAffiliation{}`. -/
def ChangeAffiliationToMember (o : Occupant) : Occupant :=
  { o with Affiliation := some data.Affiliation.MemberAffiliation }

/-- Go `ChangeAffiliationToAdmin` : `o.Affiliation = &data.AdminAffiliation{}`. -/
def ChangeAffiliationToAdmin (o : Occupant) : Occupant :=
  { o with Affiliation := some data.Affiliation.AdminAffiliation }

/-- Go `ChangeAffiliationToOwner` : `o.Affiliation = &data.OwnerAffiliation{}`. -/
def ChangeAffiliationToOwner (o : Occupant) : Occupant :=
  { o with Affiliation := some data.Affiliation.OwnerAffiliation }

/-- Go `Update` : five assignments, in source order. -/
def Update (o : Occupant) (nickname : String) (affiliation : Option data.Affiliation)
    (role : Option data.Role) (status statusMsg : String) (realJid : Option jid.Full) :
    Occupant :=
  let o := { o with Nickname := nickname }
  let o := { o with RealJid := realJid }
  let o := { o with Affiliation := affiliation }
  let o := { o with Role := role }
  { o with Status := some { Status := status, StatusMsg := statusMsg } }

/-- Go `UpdateStatus` : `o.Status = &roster.Status{Status: status, StatusMsg: statusMsg}`. -/
def UpdateStatus (o : Occupant) (status statusMsg : String) : Occupant :=
  { o with Status := some { Status := status, StatusMsg := statusMsg } }

end Occupant

end muc

/-! ## Go errors and localized strings -/

/-- The Go `error` values that reach this code. The package-level sentinels made
with `errors.New` are one constructor each (Go compares them by identity, so
two sentinels are equal only when they are the same variable);
`lobbyErr room nickname errType` is a `*mucRoomLobbyErr` built by
`newMUCRoomLobbyErr`; `other msg` is any error made elsewhere (for instance by
the XMPP session), which is never identical to a sentinel of this package. -/
inductive GoError where
  | errJoinRequestFailed
  | errJoinNoConnection
  | errJoinNickNameConflict
  | errJoinOnlyMembers
  | errCreateRoomCheckIfExistsFails
  | errCreateRoomAlreadyExists
  | errCreateRoomFailed
  | lobbyErr (room : jid.Bare) (nickname : String) (errType : GoError)
  | other (msg : String)
  deriving DecidableEq, Repr

/-- The struct `mucRoomLobbyErr`. -/
structure mucRoomLobbyErr where
  room : jid.Bare
  nickname : String
  errType : GoError
  deriving DecidableEq, Repr

/-- Go `newMUCRoomLobbyErr` : the error value `&mucRoomLobbyErr{room, nickname, errType}`. -/
def newMUCRoomLobbyErr (room : jid.Bare) (nickname : String) (errType : GoError) : GoError :=
  GoError.lobbyErr room nickname errType

/-- The type assertion `err.(*mucRoomLobbyErr)`: `some` of the struct when the
dynamic type of `err` is `*mucRoomLobbyErr` (`ok` is true), `none` otherwise. -/
def GoError.asMucRoomLobbyErr : GoError → Option mucRoomLobbyErr
  | GoError.lobbyErr room nickname errType =>
      some { room := room, nickname := nickname, errType := errType }
  | _ => none

namespace i18n

/-- A string obtained from package `i18n`, kept as the call that produces it:
`Local key` for `i18n.Local(key)`, `Localf fmt args` for
`i18n.Localf(fmt, args...)`. -/
inductive Message where
  | Local (key : String)
  | Localf (fmt : String) (args : List String)
  deriving DecidableEq, Repr

end i18n

/-! ## `gui/muc_room_lobby.go` -/

/-- A value travelling on one of the two unbuffered channels that `onJoin`
makes: `onJoinChannel b` is `v.onJoinChannel <- b`, `onJoinErrorChannel err`
is `v.onJoinErrorChannel <- err`. -/
inductive JoinResolution where
  | onJoinChannel (b : Bool)
  | onJoinErrorChannel (err : GoError)
  deriving DecidableEq, Repr

/-- A closure handed to `doInUIThread` by the lobby. -/
inductive LobbyUITask where
  | clearErrors
  | onJoinFailed (err : GoError)
  deriving DecidableEq, Repr

/-- A goroutine started by `onJoin` with a `go` statement. -/
inductive LobbyGoroutine where
  | sendRoomEnterRequest (nickName : String)
  | whenEnterRequestHasBeenResolved (nickName : String)
  deriving DecidableEq, Repr

/-- The struct `roomViewLobby`. Widgets are represented by the part of their
state that the code reads or writes: the text and sensitivity of
`nickNameEntry`, the sensitivity of `joinButton`, the spinner, and the message
shown by `errorNotif` (`none` when hidden). `nickNamesWithConflict` is the
`*set.Set`, holding nicknames. `notification` tells whether the field
`v.notification` is non-nil; `hasOnSuccess` and `hasOnCancel` whether the
callbacks are non-nil. `joinChannels` counts the channel pairs made by `onJoin`.
The remaining fields are traces: the calls made to `session.JoinRoom`, the
number of calls of `onSuccess` and `onCancel`, and the number of
`notificationArea.Remove` calls. -/
structure roomViewLobby where
  ident : jid.Bare
  nickNameEntryText : String
  nickNameEntrySensitive : Bool
  joinButtonSensitive : Bool
  spinnerStarted : Bool
  spinnerVisible : Bool
  errorNotif : Option i18n.Message
  notification : Bool
  joinChannels : Nat
  nickNamesWithConflict : Finset String
  hasOnSuccess : Bool
  hasOnCancel : Bool
  joinRoomCalls : List (jid.Bare × String)
  onSuccessCalls : Nat
  onCancelCalls : Nat
  notificationAreaRemoved : Nat
  deriving DecidableEq

namespace roomViewLobby

/-- Go `clearErrors` : `v.errorNotif.Hide()`. -/
def clearErrors (v : roomViewLobby) : roomViewLobby :=
  { v with errorNotif := none }

/-- Go `notifyOnError` : removes `v.notification` from the notification area when
it is non-nil, then shows the message. -/
def notifyOnError (v : roomViewLobby) (err : i18n.Message) : roomViewLobby :=
  let v := if v.notification then
      { v with notificationAreaRemoved := v.notificationAreaRemoved + 1 }
    else v
  { v with errorNotif := some err }

/-- Go `onJoinCancel` : calls `v.onCancel` when it is non-nil. -/
def onJoinCancel (v : roomViewLobby) : roomViewLobby :=
  if v.hasOnCancel then { v with onCancelCalls := v.onCancelCalls + 1 } else v

/-- Go `enableJoinIfConditionsAreMet`. Go's `len(nickName)` is the byte length of
the string. -/
def enableJoinIfConditionsAreMet (v : roomViewLobby) : roomViewLobby :=
  let v := v.clearErrors
  let nickName := v.nickNameEntryText
  let conditionsAreValid := nickName.utf8ByteSize != 0
  let (v, conditionsAreValid) :=
    if nickName ∈ v.nickNamesWithConflict then
      (v.notifyOnError (i18n.Message.Local "That nickname is already being used."), false)
    else (v, conditionsAreValid)
  { v with joinButtonSensitive := conditionsAreValid }

/-- Go `onNickNameChange`, the handler of the signal `on_nickname_changed`. -/
def onNickNameChange (v : roomViewLobby) : roomViewLobby :=
  v.enableJoinIfConditionsAreMet

/-- Go `disableFields`. -/
def disableFields (v : roomViewLobby) : roomViewLobby :=
  { v with nickNameEntrySensitive := false }

/-- Go `enableFields`. -/
def enableFields (v : roomViewLobby) : roomViewLobby :=
  { v with nickNameEntrySensitive := true }

/-- Go `showSpinner`. -/
def showSpinner (v : roomViewLobby) : roomViewLobby :=
  { v with spinnerStarted := true, spinnerVisible := true }

/-- Go `hideSpinner`. -/
def hideSpinner (v : roomViewLobby) : roomViewLobby :=
  { v with spinnerStarted := false, spinnerVisible := false }

/-- Go `onJoin`, the handler of the signal `on_joined_clicked`: the new state of
the view and the two goroutines it starts, in source order. -/
def onJoin (v : roomViewLobby) : roomViewLobby × List LobbyGoroutine :=
  let v := v.disableFields
  let v := v.showSpinner
  let v := { v with joinButtonSensitive := false }
  let nickName := v.nickNameEntryText
  let v := { v with joinChannels := v.joinChannels + 1 }
  (v, [LobbyGoroutine.sendRoomEnterRequest nickName,
       LobbyGoroutine.whenEnterRequestHasBeenResolved nickName])

/-- Go `finishJoinRequest` : the channel sends it performs, in order. -/
def finishJoinRequest (err : Option GoError) : List JoinResolution :=
  match err with
  | some e => [JoinResolution.onJoinErrorChannel e]
  | none => [JoinResolution.onJoinChannel true]

/-- Go `sendRoomEnterRequest`. `joinRoomErr` is what `v.ac.session.JoinRoom(v.ident,
nickName)` returns (`none` for `nil`); the call is appended to `joinRoomCalls`.
The second component lists the channel sends made through `finishJoinRequest`. -/
def sendRoomEnterRequest (v : roomViewLobby) (nickName : String)
    (joinRoomErr : Option GoError) : roomViewLobby × List JoinResolution :=
  let v := { v with joinRoomCalls := v.joinRoomCalls ++ [(v.ident, nickName)] }
  match joinRoomErr with
  | some _ => (v, finishJoinRequest (some GoError.errJoinNoConnection))
  | none => (v, [])

/-- Go `getUserErrorMessage`. -/
def getUserErrorMessage (err : mucRoomLobbyErr) : i18n.Message :=
  if err.errType = GoError.errJoinNickNameConflict then
    i18n.Message.Localf
      "Can't join the room using the nickname \"%s\" because it's already being used."
      [err.nickname]
  else if err.errType = GoError.errJoinOnlyMembers then
    i18n.Message.Local "Sorry, this room only allows registered members"
  else
    i18n.Message.Local "An error occurred while trying to join the room, please check your connection or make sure the room exists."

/-- Go `onJoinFailed`. -/
def onJoinFailed (v : roomViewLobby) (err : GoError) : roomViewLobby :=
  let shouldEnableCreation := true
  let userMessage := i18n.Message.Local "An unknown error occurred while trying to join the room, please check your connection or try again."
  let (v, shouldEnableCreation, userMessage) :=
    match err.asMucRoomLobbyErr with
    | some err =>
        let userMessage := getUserErrorMessage err
        if err.errType = GoError.errJoinNickNameConflict then
          let nickName := err.nickname
          let v := if ¬ nickName ∈ v.nickNamesWithConflict then
              { v with nickNamesWithConflict := insert nickName v.nickNamesWithConflict }
            else v
          (v, false, userMessage)
        else (v, shouldEnableCreation, userMessage)
    | none => (v, shouldEnableCreation, userMessage)
  let v := v.notifyOnError userMessage
  let v := v.enableFields
  let v := v.hideSpinner
  { v with joinButtonSensitive := shouldEnableCreation }

/-- Runs a closure that was handed to `doInUIThread`. -/
def runUITask (v : roomViewLobby) : LobbyUITask → roomViewLobby
  | LobbyUITask.clearErrors => v.clearErrors
  | LobbyUITask.onJoinFailed err => v.onJoinFailed err

/-- Go `whenEnterRequestHasBeenResolved`, given the value `r` that its `select`
receives: the state after the goroutine has finished and the closures it has
handed to `doInUIThread`. -/
def whenEnterRequestHasBeenResolved (v : roomViewLobby) (_nickName : String)
    (r : JoinResolution) : roomViewLobby × List LobbyUITask :=
  match r with
  | JoinResolution.onJoinChannel _ =>
      let v := if v.hasOnSuccess then { v with onSuccessCalls := v.onSuccessCalls + 1 } else v
      (v, [LobbyUITask.clearErrors])
  | JoinResolution.onJoinErrorChannel err =>
      (v, [LobbyUITask.onJoinFailed err])

/-- Go `onRoomOccupantJoinedReceived`. -/
def onRoomOccupantJoinedReceived : List JoinResolution :=
  finishJoinRequest none

/-- Go `onJoinErrorRecevied`. -/
def onJoinErrorRecevied (room : jid.Bare) (nickname : String) : List JoinResolution :=
  finishJoinRequest (some (newMUCRoomLobbyErr room nickname GoError.errJoinRequestFailed))

/-- Go `onNicknameConflictReceived`. -/
def onNicknameConflictReceived (room : jid.Bare) (nickname : String) : List JoinResolution :=
  finishJoinRequest (some (newMUCRoomLobbyErr room nickname GoError.errJoinNickNameConflict))

/-- Go `onRegistrationRequiredReceived`. -/
def onRegistrationRequiredReceived (room : jid.Bare) (nickname : String) : List JoinResolution :=
  finishJoinRequest (some (newMUCRoomLobbyErr room nickname GoError.errJoinOnlyMembers))

/-- The resolution of a join attempt as the view sees it: the waiting goroutine
`whenEnterRequestHasBeenResolved` receives `r`, and the UI thread then runs the
closures that were handed to `doInUIThread`, in order. -/
def resolveJoin (v : roomViewLobby) (nickName : String) (r : JoinResolution) :
    roomViewLobby :=
  let (v, tasks) := v.whenEnterRequestHasBeenResolved nickName r
  tasks.foldl runUITask v

/-- Runs to its end the `sendRoomEnterRequest` goroutine among the goroutines
`gs` started by `onJoin`; `joinRoomErr` is the result of `session.JoinRoom`. -/
def runSendRoomEnterRequest (v : roomViewLobby) (joinRoomErr : Option GoError) :
    List LobbyGoroutine → roomViewLobby × List JoinResolution
  | [] => (v, [])
  | LobbyGoroutine.sendRoomEnterRequest nickName :: _ =>
      v.sendRoomEnterRequest nickName joinRoomErr
  | LobbyGoroutine.whenEnterRequestHasBeenResolved _ :: gs =>
      runSendRoomEnterRequest v joinRoomErr gs

/-- A join attempt made by calling `onJoin`: the handler runs, then the
`sendRoomEnterRequest` goroutine it started. -/
def joinAttempt (v : roomViewLobby) (joinRoomErr : Option GoError) :
    roomViewLobby × List JoinResolution :=
  let (v, gs) := v.onJoin
  runSendRoomEnterRequest v joinRoomErr gs

end roomViewLobby

/-! ## `gui/muc_create_room.go` -/

/-- Modelled from the spec: the struct `account` (file `gui/account.go`), the
account on whose session a room is created; only its identity matters here. -/
structure account where
  id : String
  deriving DecidableEq, Repr

/-- Program counter of the goroutine started by one call of
`mucCreateRoomView.createRoom`. `selecting c` is the goroutine blocked in its
`select`; `c` is the value of `v.cancel` read when the `select` was entered:
`none` for nil (a nil channel is never ready), `some n` for the channel made by
the call of `createRoom` number `n`. -/
inductive OuterPC where
  | started
  | checked
  | selecting (cancel : Option Nat)
  | finished
  deriving DecidableEq, Repr

/-- Program counter of the goroutine started by `checkIfRoomExists`. `selecting c`
is as for `OuterPC`. `sendingErrors e` is the goroutine blocked at
`errors <- e`, `sendingResult` at `result <- true`; both channels are
unbuffered. -/
inductive InnerPC where
  | idle
  | started
  | selecting (cancel : Option Nat)
  | sendingErrors (e : GoError)
  | sendingResult
  | finished
  deriving DecidableEq, Repr

/-- Program counter of the goroutine started by `account.createRoom`. `waiting`
is the goroutine blocked at `err := <-result` (line 110); `received err` is the
goroutine after that receive and before it calls `onError` or `onSuccess`. -/
inductive CreatorPC where
  | idle
  | waiting
  | received (err : Option GoError)
  | finished
  deriving DecidableEq, Repr

/-- A closure handed to `doInUIThread` by the creation view. -/
inductive CreateUITask where
  | joinRoom (ca : account) (roomID : jid.Bare)
  | showSuccessView (ca : account) (roomID : jid.Bare)
  deriving DecidableEq, Repr

/-- One call `v.createRoom(ca, roomID, errors)`: its arguments `ca` and `roomID`,
the three goroutines it gives rise to, and the traces of what they do: the
calls of `session.HasRoom` and `session.CreateRoom`, the values sent on the
channel `errors` passed to the call (the caller is taken to receive them), and
the calls of `v.showSuccessView` and `v.u.joinRoom` made by the closures of
this call. -/
structure CreateAttempt where
  ca : account
  roomID : jid.Bare
  outer : OuterPC
  inner : InnerPC
  creator : CreatorPC
  hasRoomCalls : List jid.Bare
  createRoomCalls : List jid.Bare
  errors : List GoError
  successViews : List (account × jid.Bare)
  joinRooms : List (account × jid.Bare)
  deriving DecidableEq, Repr

/-- The struct `mucCreateRoomView` together with the channels and goroutines of
the calls of `createRoom` made on it. `cancelChannels` holds the content of the
channel made by each call of `createRoom` (`make(chan bool, 1)`), in call
order; `cancel` is the field `v.cancel`: `none` for nil, `some n` for the
channel number `n`. `attempts` holds the calls of `createRoom`, in call order.
`uiQueue` holds the closures handed to `doInUIThread` that the UI thread has
not run yet, each with the number of the call whose goroutine handed it. The
remaining fields are traces: the calls of `v.dialog.Destroy`,
`v.dialog.ShowAll` and `v.onAutoJoin.invokeAll`. -/
structure mucCreateRoomView where
  autoJoin : Bool
  cancel : Option Nat
  cancelChannels : List (List Bool)
  attempts : List CreateAttempt
  uiQueue : List (Nat × CreateUITask)
  dialogDestroyed : Nat
  dialogShowAll : Nat
  onAutoJoinInvoked : Nat
  deriving DecidableEq, Repr

/-- Go `newCreateMUCRoomView` : the view as constructed, `autoJoin` false and
`cancel` nil, with no call of `createRoom` made and empty traces. -/
def newCreateMUCRoomView : mucCreateRoomView :=
  { autoJoin := false, cancel := none, cancelChannels := [], attempts := [],
    uiQueue := [], dialogDestroyed := 0, dialogShowAll := 0, onAutoJoinInvoked := 0 }

namespace CreateAttempt

/-- The call `v.createRoom(ca, roomID, errors)` once its goroutine has been
started (line 140) and has not run yet. -/
def start (ca : account) (roomID : jid.Bare) : CreateAttempt :=
  { ca := ca, roomID := roomID, outer := OuterPC.started, inner := InnerPC.idle,
    creator := CreatorPC.idle, hasRoomCalls := [], createRoomCalls := [], errors := [],
    successViews := [], joinRooms := [] }

/-- Go `checkIfRoomExists`, the part run by its caller: the call of
`ca.session.HasRoom(roomID, nil)` and the start of the goroutine. -/
def checkIfRoomExists (a : CreateAttempt) : CreateAttempt :=
  let a := { a with hasRoomCalls := a.hasRoomCalls ++ [a.roomID] }
  { a with inner := InnerPC.started }

/-- The goroutine of `checkIfRoomExists` on `case err := <-ec`. -/
def checkIfRoomExistsOnEc (a : CreateAttempt) (_err : Option GoError) : CreateAttempt :=
  { a with inner := InnerPC.sendingErrors GoError.errCreateRoomCheckIfExistsFails }

/-- The goroutine of `checkIfRoomExists` on `case exists := <-rc`. -/
def checkIfRoomExistsOnRc (a : CreateAttempt) (exists_ : Bool) : CreateAttempt :=
  if exists_ then
    { a with inner := InnerPC.sendingErrors GoError.errCreateRoomAlreadyExists }
  else
    { a with inner := InnerPC.sendingResult }

/-- Go `account.createRoom`, the part run by its caller: the call of
`a.session.CreateRoom(roomID)` and the start of the goroutine. -/
def accountCreateRoom (a : CreateAttempt) : CreateAttempt :=
  let a := { a with createRoomCalls := a.createRoomCalls ++ [a.roomID] }
  { a with creator := CreatorPC.waiting }

/-- Go `onCreateRoomFinished` : the closure it hands to `doInUIThread`, given the
value of `v.autoJoin` that it reads (line 158). -/
def onCreateRoomFinished (a : CreateAttempt) (autoJoin : Bool) : List CreateUITask :=
  if autoJoin then [CreateUITask.joinRoom a.ca a.roomID]
  else [CreateUITask.showSuccessView a.ca a.roomID]

/-- The goroutine of `account.createRoom` after `err := <-result` has received
`err` (lines 111-115), with the callbacks that `mucCreateRoomView.createRoom`
passes: `onError` sends `errCreateRoomFailed` on `errors`, `onSuccess` calls
`onCreateRoomFinished`, which reads `v.autoJoin`. -/
def accountCreateRoomOnResult (a : CreateAttempt) (autoJoin : Bool) (err : Option GoError) :
    CreateAttempt × List CreateUITask :=
  let a := { a with creator := CreatorPC.finished }
  match err with
  | some _ => ({ a with errors := a.errors ++ [GoError.errCreateRoomFailed] }, [])
  | none => (a, a.onCreateRoomFinished autoJoin)

/-- What a closure handed to `doInUIThread` records for its call of
`createRoom`: `joinRoom` calls `v.u.joinRoom(ca, roomID, nil)`, the other
closure calls `v.showSuccessView(ca, roomID)`. -/
def runUITask (a : CreateAttempt) : CreateUITask → CreateAttempt
  | CreateUITask.joinRoom ca roomID => { a with joinRooms := a.joinRooms ++ [(ca, roomID)] }
  | CreateUITask.showSuccessView ca roomID =>
      { a with successViews := a.successViews ++ [(ca, roomID)] }

end CreateAttempt

/-- A step of one of the three goroutines of one call of `createRoom`, up to its
next blocking point or its next read of a field of the view. -/
inductive AttemptEvent where
  /-- The goroutine of `createRoom` calls `v.checkIfRoomExists` (line 141). -/
  | outerCheck
  /-- The goroutine of `createRoom` enters its `select` (line 142), which reads
  `v.cancel`. -/
  | outerSelect
  /-- The goroutine of `checkIfRoomExists` enters its `select` (line 92), which
  reads `v.cancel`. -/
  | innerSelect
  /-- The branch `case err := <-ec` fires (line 93). -/
  | innerRecvEc (err : Option GoError)
  /-- The branch `case exists := <-rc` fires (line 96). -/
  | innerRecvRc (exists_ : Bool)
  /-- The branch `case <-v.cancel` fires in `checkIfRoomExists` (line 102). -/
  | innerRecvCancel
  /-- The branch `case <-sc` fires (line 143), meeting the send `result <- true`
  (line 101). -/
  | outerRecvSc
  /-- The branch `case err := <-er` fires (line 150), meeting a send
  `errors <- ...` of `checkIfRoomExists` (lines 95, 98). -/
  | outerRecvEr
  /-- The branch `case <-v.cancel` fires in `createRoom` (line 152). -/
  | outerRecvCancel
  /-- The receive `err := <-result` in `account.createRoom` (line 110). -/
  | creatorRecv (err : Option GoError)
  /-- The goroutine of `account.createRoom` calls `onError` or `onSuccess`
  (lines 111-115); `onSuccess` reads `v.autoJoin` (line 158). -/
  | creatorRun
  deriving DecidableEq, Repr

/-- One step of a goroutine of the call `a`; `none` when the step is not enabled.
`autoJoin` and `cancel` are the fields of the view when the step is taken. The
result is the call after the step and the closures handed to `doInUIThread`.
For the two cancel branches only the program counter is checked here; that
the channel holds a value is checked by `createStep`. -/
def attemptStep (autoJoin : Bool) (cancel : Option Nat) (a : CreateAttempt) :
    AttemptEvent → Option (CreateAttempt × List CreateUITask)
  | AttemptEvent.outerCheck =>
      if a.outer = OuterPC.started then
        some ({ a.checkIfRoomExists with outer := OuterPC.checked }, [])
      else none
  | AttemptEvent.outerSelect =>
      if a.outer = OuterPC.checked then
        some ({ a with outer := OuterPC.selecting cancel }, [])
      else none
  | AttemptEvent.innerSelect =>
      if a.inner = InnerPC.started then
        some ({ a with inner := InnerPC.selecting cancel }, [])
      else none
  | AttemptEvent.innerRecvEc err =>
      match a.inner with
      | InnerPC.selecting _ => some (a.checkIfRoomExistsOnEc err, [])
      | _ => none
  | AttemptEvent.innerRecvRc b =>
      match a.inner with
      | InnerPC.selecting _ => some (a.checkIfRoomExistsOnRc b, [])
      | _ => none
  | AttemptEvent.innerRecvCancel =>
      match a.inner with
      | InnerPC.selecting (some _) => some ({ a with inner := InnerPC.finished }, [])
      | _ => none
  | AttemptEvent.outerRecvSc =>
      match a.outer, a.inner with
      | OuterPC.selecting _, InnerPC.sendingResult =>
          let a := { a with inner := InnerPC.finished }
          some ({ a.accountCreateRoom with outer := OuterPC.finished }, [])
      | _, _ => none
  | AttemptEvent.outerRecvEr =>
      match a.outer, a.inner with
      | OuterPC.selecting _, InnerPC.sendingErrors err =>
          let a := { a with inner := InnerPC.finished }
          some ({ a with errors := a.errors ++ [err], outer := OuterPC.finished }, [])
      | _, _ => none
  | AttemptEvent.outerRecvCancel =>
      match a.outer with
      | OuterPC.selecting (some _) => some ({ a with outer := OuterPC.finished }, [])
      | _ => none
  | AttemptEvent.creatorRecv err =>
      if a.creator = CreatorPC.waiting then
        some ({ a with creator := CreatorPC.received err }, [])
      else none
  | AttemptEvent.creatorRun =>
      match a.creator with
      | CreatorPC.received err => some (a.accountCreateRoomOnResult autoJoin err)
      | _ => none

/-- The channel from which the step `e` of the call `a` receives a cancellation
signal, if it is one of the two cancel branches. -/
def cancelChannelOf (a : CreateAttempt) : AttemptEvent → Option Nat
  | AttemptEvent.innerRecvCancel =>
      match a.inner with
      | InnerPC.selecting c => c
      | _ => none
  | AttemptEvent.outerRecvCancel =>
      match a.outer with
      | OuterPC.selecting c => c
      | _ => none
  | _ => none

namespace mucCreateRoomView

/-- Go `onCancel`. The send `v.cancel <- true` goes to a channel of capacity 1; it
blocks (`none`) when the buffer is full. -/
def onCancel (v : mucCreateRoomView) : Option mucCreateRoomView :=
  let destroy := fun (v : mucCreateRoomView) =>
    { v with dialogDestroyed := v.dialogDestroyed + 1 }
  match v.cancel with
  | some c =>
      match v.cancelChannels[c]? with
      | some buffer =>
          if buffer.length < 1 then
            let v := { v with cancelChannels := v.cancelChannels.set c (buffer ++ [true]) }
            let v := { v with cancel := none }
            some (destroy v)
          else none
      | none => none
  | none => some (destroy v)

/-- Go `createRoom`, the part run by its caller: `v.cancel = make(chan bool, 1)`
and the start of the goroutine. It has no guard: every call makes a new
channel and starts a new goroutine, also on a view on which it has been called
before. -/
def createRoom (v : mucCreateRoomView) (ca : account) (roomID : jid.Bare) :
    mucCreateRoomView :=
  let v := { v with cancel := some v.cancelChannels.length,
                    cancelChannels := v.cancelChannels ++ [[]] }
  { v with attempts := v.attempts ++ [CreateAttempt.start ca roomID] }

/-- Go `updateAutoJoinValue`. -/
def updateAutoJoinValue (v : mucCreateRoomView) (f : Bool) : mucCreateRoomView :=
  if v.autoJoin = f then v
  else
    let v := { v with autoJoin := f }
    { v with onAutoJoinInvoked := v.onAutoJoinInvoked + 1 }

/-- Runs a closure that was handed to `doInUIThread` by the call number `k`, whose
state is `a`: `joinRoom` (lines 172-175) calls `v.dialog.Destroy()` and
`v.u.joinRoom`; the other closure (lines 166-167) calls `v.showSuccessView`
and `v.dialog.ShowAll()`. -/
def runUITask (v : mucCreateRoomView) (k : Nat) (a : CreateAttempt) (t : CreateUITask) :
    mucCreateRoomView :=
  let v := { v with attempts := v.attempts.set k (a.runUITask t) }
  match t with
  | CreateUITask.joinRoom _ _ => { v with dialogDestroyed := v.dialogDestroyed + 1 }
  | CreateUITask.showSuccessView _ _ => { v with dialogShowAll := v.dialogShowAll + 1 }

end mucCreateRoomView

/-- The scheduling choices of the creation view: a call made by the UI thread
(`createRoom` with its arguments, `onCancel`, `updateAutoJoinValue`, `uiRun`
for the oldest closure of `doInUIThread`), or a step `e` of a goroutine of the
call of `createRoom` number `k`. -/
inductive CreateEvent where
  /-- The UI thread calls `v.createRoom(ca, roomID, errors)` (lines 134-155). -/
  | createRoom (ca : account) (roomID : jid.Bare)
  /-- The UI thread calls `v.onCancel()` (lines 70-77). -/
  | onCancel
  /-- The UI thread calls `v.updateAutoJoinValue(f)` (lines 177-187). -/
  | updateAutoJoinValue (f : Bool)
  /-- The UI thread runs the oldest closure handed to `doInUIThread`. -/
  | uiRun
  /-- A goroutine of the call of `createRoom` number `k` takes the step `e`. -/
  | attempt (k : Nat) (e : AttemptEvent)
  deriving DecidableEq, Repr

/-- One step of the creation view; `none` when the event is not enabled in state
`v`. A step of a goroutine changes the state of its call and queues the
closures it hands to `doInUIThread`; a cancel branch moreover takes one value
from the channel it receives from, and is enabled only when there is one. -/
def createStep (v : mucCreateRoomView) : CreateEvent → Option mucCreateRoomView
  | CreateEvent.createRoom ca roomID => some (v.createRoom ca roomID)
  | CreateEvent.onCancel => v.onCancel
  | CreateEvent.updateAutoJoinValue f => some (v.updateAutoJoinValue f)
  | CreateEvent.uiRun =>
      match v.uiQueue with
      | [] => none
      | (k, t) :: rest =>
          match v.attempts[k]? with
          | some a => some ({ v with uiQueue := rest }.runUITask k a t)
          | none => none
  | CreateEvent.attempt k e =>
      match v.attempts[k]? with
      | none => none
      | some a =>
          match attemptStep v.autoJoin v.cancel a e with
          | none => none
          | some (a1, tasks) =>
              let v1 := { v with attempts := v.attempts.set k a1,
                                 uiQueue := v.uiQueue ++ tasks.map (fun t => (k, t)) }
              match cancelChannelOf a e with
              | none => some v1
              | some c =>
                  match v.cancelChannels[c]? with
                  | some (_ :: rest) =>
                      some { v1 with cancelChannels := v.cancelChannels.set c rest }
                  | _ => none

/-- Runs a schedule from state `v`; `none` when some event of it is not
enabled where it occurs. -/
def createRun (v : mucCreateRoomView) : List CreateEvent → Option mucCreateRoomView
  | [] => some v
  | e :: es => (createStep v e).bind (fun v => createRun v es)

/-! ## Schedules of the creation view -/

/-- The steps taken by the goroutines of the call of `createRoom` number `k` in
the schedule `es`, in order. -/
def attemptEvents (k : Nat) (es : List CreateEvent) : List AttemptEvent :=
  es.filterMap fun e =>
    match e with
    | CreateEvent.attempt j le => if j = k then some le else none
    | _ => none

/-- The closures of the call of `createRoom` number `k` in the queue `q`, in
order. -/
def tasksOf (k : Nat) (q : List (Nat × CreateUITask)) : List CreateUITask :=
  q.filterMap fun p => if p.1 = k then some p.2 else none

/-- The reports of the existence check among the steps `h` of one call: the
steps in which the goroutine of `checkIfRoomExists` receives from `ec` or from
`rc`. -/
def checkReports (h : List AttemptEvent) : List AttemptEvent :=
  h.filter fun e =>
    match e with
    | AttemptEvent.innerRecvEc _ => true
    | AttemptEvent.innerRecvRc _ => true
    | _ => false

/-- The results of the transport's create operation among the steps `h` of one
call: the steps in which the goroutine of `account.createRoom` receives from
`result`. -/
def createResults (h : List AttemptEvent) : List AttemptEvent :=
  h.filter fun e =>
    match e with
    | AttemptEvent.creatorRecv _ => true
    | _ => false

/-- The goroutine of `createRoom` has called `checkIfRoomExists`. -/
def OuterRunning (a : CreateAttempt) : Prop :=
  a.outer = OuterPC.checked ∨ (∃ c, a.outer = OuterPC.selecting c)
    ∨ a.outer = OuterPC.finished

/-- Nothing has come out of the call `a`, whose queued closures are `q`: create
has not been called, no error has been reported, and no success closure has
been queued or run. -/
def NoOutcome (q : List CreateUITask) (a : CreateAttempt) : Prop :=
  a.creator = CreatorPC.idle ∧ a.createRoomCalls = [] ∧ a.errors = [] ∧ q = []
    ∧ a.successViews = [] ∧ a.joinRooms = []

/-- The invariant of one call `a` of `createRoom`, relating its state and its
queued closures `q` to the steps `h` its goroutines have taken. First
disjunct: the goroutine of `createRoom` has not received from the check;
nothing has come out, each of the two goroutines has finished exactly if it
has received a cancellation signal, and the goroutine of `checkIfRoomExists`
holds exactly what the check reported. Second
disjunct: the goroutine of `createRoom` has received from the check and no
cancellation signal has been received; either it has forwarded the error of
the check, or it has called create and the call is waiting for the result,
has received it, has failed, or has succeeded with exactly one of the two
closures queued or run. -/
def AttemptInv (h : List AttemptEvent) (q : List CreateUITask) (a : CreateAttempt) : Prop :=
  (NoOutcome q a ∧ createResults h = []
      ∧ (a.outer = OuterPC.finished ↔ AttemptEvent.outerRecvCancel ∈ h)
      ∧ (a.inner = InnerPC.finished ↔ AttemptEvent.innerRecvCancel ∈ h)
      ∧ ((a.inner = InnerPC.idle ∧ a.outer = OuterPC.started ∧ checkReports h = [])
        ∨ ((a.inner = InnerPC.started ∨ (∃ c, a.inner = InnerPC.selecting c)
              ∨ a.inner = InnerPC.finished) ∧ OuterRunning a ∧ checkReports h = [])
        ∨ (a.inner = InnerPC.sendingErrors GoError.errCreateRoomAlreadyExists ∧ OuterRunning a
            ∧ checkReports h = [AttemptEvent.innerRecvRc true])
        ∨ (a.inner = InnerPC.sendingErrors GoError.errCreateRoomCheckIfExistsFails
            ∧ OuterRunning a ∧ ∃ x, checkReports h = [AttemptEvent.innerRecvEc x])
        ∨ (a.inner = InnerPC.sendingResult ∧ OuterRunning a
            ∧ checkReports h = [AttemptEvent.innerRecvRc false])))
  ∨ (a.outer = OuterPC.finished ∧ a.inner = InnerPC.finished
      ∧ AttemptEvent.outerRecvCancel ∉ h ∧ AttemptEvent.innerRecvCancel ∉ h
      ∧ ((a.creator = CreatorPC.idle ∧ a.createRoomCalls = [] ∧ q = []
            ∧ a.successViews = [] ∧ a.joinRooms = [] ∧ createResults h = []
            ∧ ((a.errors = [GoError.errCreateRoomAlreadyExists]
                  ∧ checkReports h = [AttemptEvent.innerRecvRc true])
              ∨ (a.errors = [GoError.errCreateRoomCheckIfExistsFails]
                  ∧ ∃ x, checkReports h = [AttemptEvent.innerRecvEc x])))
        ∨ (checkReports h = [AttemptEvent.innerRecvRc false] ∧ a.createRoomCalls = [a.roomID]
            ∧ ((a.creator = CreatorPC.waiting ∧ a.errors = [] ∧ q = []
                  ∧ a.successViews = [] ∧ a.joinRooms = [] ∧ createResults h = [])
              ∨ (∃ x, a.creator = CreatorPC.received x ∧ a.errors = [] ∧ q = []
                  ∧ a.successViews = [] ∧ a.joinRooms = []
                  ∧ createResults h = [AttemptEvent.creatorRecv x])
              ∨ (a.creator = CreatorPC.finished ∧ a.errors = [GoError.errCreateRoomFailed]
                  ∧ q = [] ∧ a.successViews = [] ∧ a.joinRooms = []
                  ∧ ∃ x, createResults h = [AttemptEvent.creatorRecv (some x)])
              ∨ (a.creator = CreatorPC.finished ∧ a.errors = []
                  ∧ createResults h = [AttemptEvent.creatorRecv none]
                  ∧ ((q = [CreateUITask.joinRoom a.ca a.roomID] ∧ a.successViews = []
                        ∧ a.joinRooms = [])
                    ∨ (q = [CreateUITask.showSuccessView a.ca a.roomID]
                        ∧ a.successViews = [] ∧ a.joinRooms = [])
                    ∨ (q = [] ∧ a.successViews = [] ∧ a.joinRooms = [(a.ca, a.roomID)])
                    ∨ (q = [] ∧ a.successViews = [(a.ca, a.roomID)]
                        ∧ a.joinRooms = [])))))))

/-- The invariant of the creation view: every call of `createRoom` made so far
satisfies `AttemptInv`, and a call not made yet has taken no step and has
queued no closure. -/
def CreateInv (es : List CreateEvent) (v : mucCreateRoomView) : Prop :=
  ∀ k, match v.attempts[k]? with
    | some a => AttemptInv (attemptEvents k es) (tasksOf k v.uiQueue) a
    | none => attemptEvents k es = [] ∧ tasksOf k v.uiQueue = []

/-- The cancel field of the view, when it is not nil, names a channel that has
been made and is empty. -/
def CancelInv (v : mucCreateRoomView) : Prop :=
  ∀ c, v.cancel = some c → v.cancelChannels[c]? = some []

/-- The schedule in which `updateAutoJoinValue` is called with each value of
`fs` in turn. -/
def autoJoinToggles (fs : List Bool) : List CreateEvent :=
  fs.map CreateEvent.updateAutoJoinValue

/-- The view without its auto-join flag and without the trace of
`onAutoJoin.invokeAll`. -/
def withoutAutoJoin (v : mucCreateRoomView) : mucCreateRoomView :=
  { v with autoJoin := false, onAutoJoinInvoked := 0 }

/-- The call of `createRoom` number `k` of the view `v` is `a` and awaits the
result of create, or has received it and has not yet called `onError` or
`onSuccess`: nothing has come out of it yet, and every closure in the queue
belongs to a call that has been made. -/
def AwaitsResult (v : mucCreateRoomView) (k : Nat) (a : CreateAttempt) : Prop :=
  v.attempts[k]? = some a ∧ a.errors = [] ∧ a.successViews = [] ∧ a.joinRooms = []
    ∧ tasksOf k v.uiQueue = [] ∧ ∀ p ∈ v.uiQueue, p.1 < v.attempts.length

/-- The closure that `onCreateRoomFinished` hands to `doInUIThread` for the call
`a` when it reads the value `autoJoin` of the flag. -/
def successTask (a : CreateAttempt) (autoJoin : Bool) : CreateUITask :=
  if autoJoin then CreateUITask.joinRoom a.ca a.roomID
  else CreateUITask.showSuccessView a.ca a.roomID

/-! ## Channel projections and example states -/

/-- The values sent on `v.onJoinChannel` among the channel sends `rs`. -/
def sentOnJoinChannel (rs : List JoinResolution) : List Bool :=
  rs.filterMap fun r =>
    match r with
    | JoinResolution.onJoinChannel b => some b
    | JoinResolution.onJoinErrorChannel _ => none

/-- The values sent on `v.onJoinErrorChannel` among the channel sends `rs`. -/
def sentOnJoinErrorChannel (rs : List JoinResolution) : List GoError :=
  rs.filterMap fun r =>
    match r with
    | JoinResolution.onJoinChannel _ => none
    | JoinResolution.onJoinErrorChannel e => some e

/-- A lobby for the room `room1` with the given nickname text and conflict set,
its fields enabled, no error shown and no join attempted yet. -/
def exampleLobby (nickName : String) (conflicts : Finset String) : roomViewLobby :=
  { ident := { repr := "room1" }, nickNameEntryText := nickName,
    nickNameEntrySensitive := true, joinButtonSensitive := true,
    spinnerStarted := false, spinnerVisible := false, errorNotif := none,
    notification := false, joinChannels := 0, nickNamesWithConflict := conflicts,
    hasOnSuccess := true, hasOnCancel := true, joinRoomCalls := [],
    onSuccessCalls := 0, onCancelCalls := 0, notificationAreaRemoved := 0 }

/-- An account. -/
def exampleAccount : account := { id := "alice@example.org" }

/-- A room identifier. -/
def exampleRoom : jid.Bare := { repr := "room1" }

/-- Another room identifier. -/
def exampleRoom2 : jid.Bare := { repr := "room2" }

/-- The steps with which the call number `k` starts its existence check and
blocks in both `select` statements. -/
def scheduleChecking (k : Nat) : List CreateEvent :=
  [CreateEvent.attempt k AttemptEvent.outerCheck,
   CreateEvent.attempt k AttemptEvent.outerSelect,
   CreateEvent.attempt k AttemptEvent.innerSelect]

/-- A schedule in which `createRoom` is called once and the check reports that
the room exists. -/
def scheduleRoomTaken : List CreateEvent :=
  CreateEvent.createRoom exampleAccount exampleRoom :: scheduleChecking 0
    ++ [CreateEvent.attempt 0 (AttemptEvent.innerRecvRc true),
        CreateEvent.attempt 0 AttemptEvent.outerRecvEr]

/-- A schedule in which `createRoom` is called once, the check reports the room
available and create has been called. -/
def scheduleRoomCreating : List CreateEvent :=
  CreateEvent.createRoom exampleAccount exampleRoom :: scheduleChecking 0
    ++ [CreateEvent.attempt 0 (AttemptEvent.innerRecvRc false),
        CreateEvent.attempt 0 AttemptEvent.outerRecvSc]

/-- A schedule in which the check reports the room available, create succeeds
and the UI thread runs the queued closure. -/
def scheduleRoomCreated : List CreateEvent :=
  scheduleRoomCreating
    ++ [CreateEvent.attempt 0 (AttemptEvent.creatorRecv none),
        CreateEvent.attempt 0 AttemptEvent.creatorRun, CreateEvent.uiRun]

/-- As `scheduleRoomCreated`, with `updateAutoJoinValue(true)` called after the
call of `createRoom` and before the create result arrives. -/
def scheduleToggledWhileCreating : List CreateEvent :=
  scheduleRoomCreating
    ++ [CreateEvent.updateAutoJoinValue true,
        CreateEvent.attempt 0 (AttemptEvent.creatorRecv none),
        CreateEvent.attempt 0 AttemptEvent.creatorRun, CreateEvent.uiRun]

/-- A schedule in which `onCancel` is called while the result of create is
awaited, and create then succeeds. -/
def scheduleCancelledWhileCreating : List CreateEvent :=
  scheduleRoomCreating
    ++ [CreateEvent.onCancel, CreateEvent.attempt 0 (AttemptEvent.creatorRecv none),
        CreateEvent.attempt 0 AttemptEvent.creatorRun, CreateEvent.uiRun]

/-- A schedule in which `onCancel` is called while the result of create is
awaited, and create then fails. -/
def scheduleCancelledThenCreateFails : List CreateEvent :=
  scheduleRoomCreating
    ++ [CreateEvent.onCancel,
        CreateEvent.attempt 0 (AttemptEvent.creatorRecv (some (GoError.other "timeout"))),
        CreateEvent.attempt 0 AttemptEvent.creatorRun]

/-- A schedule in which `onCancel` is called while the check is pending and the
`select` of `createRoom` receives the signal. -/
def scheduleCancelledWhileChecking : List CreateEvent :=
  CreateEvent.createRoom exampleAccount exampleRoom :: scheduleChecking 0
    ++ [CreateEvent.onCancel, CreateEvent.attempt 0 AttemptEvent.outerRecvCancel]

/-- A schedule in which, after the first call of `createRoom` has been cancelled
while checking, `createRoom` is called again on the same view for
`exampleRoom2`; the check of the second call reports the room available,
create succeeds and the UI thread runs the queued closure. -/
def scheduleSecondCall : List CreateEvent :=
  scheduleCancelledWhileChecking
    ++ CreateEvent.createRoom exampleAccount exampleRoom2 :: scheduleChecking 1
    ++ [CreateEvent.attempt 1 (AttemptEvent.innerRecvRc false),
        CreateEvent.attempt 1 AttemptEvent.outerRecvSc,
        CreateEvent.attempt 1 (AttemptEvent.creatorRecv none),
        CreateEvent.attempt 1 AttemptEvent.creatorRun, CreateEvent.uiRun]

/-- A schedule in which `createRoom` is called twice on the same view and the
check of the second call reports that the room exists. -/
def scheduleSecondCallTaken : List CreateEvent :=
  scheduleRoomTaken
    ++ CreateEvent.createRoom exampleAccount exampleRoom2 :: scheduleChecking 1
    ++ [CreateEvent.attempt 1 (AttemptEvent.innerRecvRc true),
        CreateEvent.attempt 1 AttemptEvent.outerRecvEr]

/-- A schedule in which `createRoom` is called and then `onCancel`. -/
def scheduleCancelledOnce : List CreateEvent :=
  [CreateEvent.createRoom exampleAccount exampleRoom, CreateEvent.onCancel]

/-- A call of `createRoom` for `exampleAccount` and `roomID` whose check has
reported that the room exists and that has reported the error. -/
def attemptRoomTaken (roomID : jid.Bare) : CreateAttempt :=
  { CreateAttempt.start exampleAccount roomID with
    outer := OuterPC.finished, inner := InnerPC.finished, hasRoomCalls := [roomID],
    errors := [GoError.errCreateRoomAlreadyExists] }

/-- A call of `createRoom` for `exampleAccount` and `roomID` that awaits the
result of create. -/
def attemptRoomCreating (roomID : jid.Bare) : CreateAttempt :=
  { CreateAttempt.start exampleAccount roomID with
    outer := OuterPC.finished, inner := InnerPC.finished, creator := CreatorPC.waiting,
    hasRoomCalls := [roomID], createRoomCalls := [roomID] }

/-- A call of `createRoom` for `exampleAccount` and `roomID` that has created the
room and shown the success view. -/
def attemptRoomCreated (roomID : jid.Bare) : CreateAttempt :=
  { attemptRoomCreating roomID with
    creator := CreatorPC.finished, successViews := [(exampleAccount, roomID)] }

/-- A call of `createRoom` for `exampleAccount` and `exampleRoom` whose goroutine
has received the cancellation signal while the check was pending; the
goroutine of `checkIfRoomExists` is still blocked in its `select`. -/
def attemptCancelledWhileChecking : CreateAttempt :=
  { CreateAttempt.start exampleAccount exampleRoom with
    outer := OuterPC.finished, inner := InnerPC.selecting (some 0),
    hasRoomCalls := [exampleRoom] }

/-- The state reached by `scheduleSecondCallTaken`. -/
def stateSecondCallTaken : mucCreateRoomView :=
  { newCreateMUCRoomView with
    cancel := some 1, cancelChannels := [[], []],
    attempts := [attemptRoomTaken exampleRoom, attemptRoomTaken exampleRoom2] }

/-- The state reached by `scheduleRoomCreating`. -/
def stateRoomCreating : mucCreateRoomView :=
  { newCreateMUCRoomView with
    cancel := some 0, cancelChannels := [[]], attempts := [attemptRoomCreating exampleRoom] }

/-- The state reached by `scheduleCancelledWhileChecking`. -/
def stateCancelledWhileChecking : mucCreateRoomView :=
  { newCreateMUCRoomView with
    cancel := none, cancelChannels := [[]], attempts := [attemptCancelledWhileChecking],
    dialogDestroyed := 1 }

/-- The state reached by `scheduleSecondCall`. -/
def stateSecondCall : mucCreateRoomView :=
  { newCreateMUCRoomView with
    cancel := some 1, cancelChannels := [[], []],
    attempts := [attemptCancelledWhileChecking, attemptRoomCreated exampleRoom2],
    dialogDestroyed := 1, dialogShowAll := 1 }

/-- The state reached by `scheduleCancelledOnce`. -/
def stateCancelledOnce : mucCreateRoomView :=
  { newCreateMUCRoomView with
    cancel := none, cancelChannels := [[true]],
    attempts := [CreateAttempt.start exampleAccount exampleRoom], dialogDestroyed := 1 }

/-! ## The goroutines of the lobby -/

namespace LobbyWorkflow

end LobbyWorkflow

/-- The scheduling choices of the lobby: a handler run by the UI thread
(`onJoin`, `onJoinCancel`, `uiRun` for the oldest closure of `doInUIThread`),
the run of the oldest `sendRoomEnterRequest` goroutine with the result of
`session.JoinRoom`, or a transport event calling its handler. -/
inductive LobbyEvent where
  | onJoin
  | sendRoomEnterRequest (joinRoomErr : Option GoError)
  | onJoinCancel
  | onRoomOccupantJoinedReceived
  | onJoinErrorRecevied (room : jid.Bare) (nickname : String)
  | onNicknameConflictReceived (room : jid.Bare) (nickname : String)
  | onRegistrationRequiredReceived (room : jid.Bare) (nickname : String)
  | uiRun
  deriving DecidableEq, Repr

/-- A schedule in which a join is attempted, the request is sent, the caller
cancels, and the transport then confirms that the occupant has joined. -/
def scheduleJoinedAfterCancel : List LobbyEvent :=
  [LobbyEvent.onJoin, LobbyEvent.sendRoomEnterRequest none, LobbyEvent.onJoinCancel,
   LobbyEvent.onRoomOccupantJoinedReceived]

/-- A schedule in which a join is attempted, the request is sent, the caller
cancels, the transport then reports a nickname conflict for `bob`, and the UI
thread runs the closure handed to it. -/
def scheduleConflictAfterCancel : List LobbyEvent :=
  [LobbyEvent.onJoin, LobbyEvent.sendRoomEnterRequest none, LobbyEvent.onJoinCancel,
   LobbyEvent.onNicknameConflictReceived { repr := "room1" } "bob", LobbyEvent.uiRun]

/-- C1: for every occupant and every argument tuple, `Update` leaves the
occupant with exactly the given nickname, real JID, affiliation and role and
with status `{status, statusMsg}`; no combination of affiliation and role is
rejected, in particular Owner together with the None role is stored as given. -/
theorem occupant_update_replaces_all_fields (o : muc.Occupant) (nickname : String)
    (affiliation : Option data.Affiliation) (role : Option data.Role)
    (status statusMsg : String) (realJid : Option jid.Full) :
    o.Update nickname affiliation role status statusMsg realJid
        = { Nickname := nickname, RealJid := realJid, Affiliation := affiliation,
            Role := role, Status := some { Status := status, StatusMsg := statusMsg } }
      ∧ (o.Update nickname (some data.Affiliation.OwnerAffiliation)
            (some data.Role.NoneRole) status statusMsg realJid).Affiliation
          = some data.Affiliation.OwnerAffiliation
      ∧ (o.Update nickname (some data.Affiliation.OwnerAffiliation)
            (some data.Role.NoneRole) status statusMsg realJid).Role
          = some data.Role.NoneRole := by
  refine ⟨rfl, rfl, rfl⟩

/-- C2: for every occupant and every `(status, statusMsg)`, `UpdateStatus` sets
the status to `{status, statusMsg}` and leaves nickname, real JID, affiliation
and role as they were. -/
theorem occupant_updateStatus_frame (o : muc.Occupant) (status statusMsg : String) :
    (o.UpdateStatus status statusMsg).Status
        = some { Status := status, StatusMsg := statusMsg }
      ∧ (o.UpdateStatus status statusMsg).Nickname = o.Nickname
      ∧ (o.UpdateStatus status statusMsg).RealJid = o.RealJid
      ∧ (o.UpdateStatus status statusMsg).Affiliation = o.Affiliation
      ∧ (o.UpdateStatus status statusMsg).Role = o.Role := by
  refine ⟨rfl, rfl, rfl, rfl, rfl⟩

/-- C3: every convenience mutator is a total function that touches only its own
field: each `ChangeRoleTo*` yields the occupant with the role replaced by the
named role and everything else unchanged, each `ChangeAffiliationTo*` yields
the occupant with the affiliation replaced by the named affiliation and
everything else unchanged, and `Ban` yields the same occupant as
`ChangeAffiliationToOutcast`. -/
theorem occupant_mutators_touch_only_their_field (o : muc.Occupant) :
    o.ChangeRoleToNone = { o with Role := some data.Role.NoneRole }
      ∧ o.ChangeRoleToVisitor = { o with Role := some data.Role.VisitorRole }
      ∧ o.ChangeRoleToParticipant = { o with Role := some data.Role.ParticipantRole }
      ∧ o.ChangeRoleToModerator = { o with Role := some data.Role.ModeratorRole }
      ∧ o.ChangeAffiliationToNone
          = { o with Affiliation := some data.Affiliation.NoneAffiliation }
      ∧ o.ChangeAffiliationToOutcast
          = { o with Affiliation := some data.Affiliation.OutcastAffiliation }
      ∧ o.ChangeAffiliationToMember
          = { o with Affiliation := some data.Affiliation.MemberAffiliation }
      ∧ o.ChangeAffiliationToAdmin
          = { o with Affiliation := some data.Affiliation.AdminAffiliation }
      ∧ o.ChangeAffiliationToOwner
          = { o with Affiliation := some data.Affiliation.OwnerAffiliation }
      ∧ o.Ban = o.ChangeAffiliationToOutcast := by
  refine ⟨rfl, rfl, rfl, rfl, rfl, rfl, rfl, rfl, rfl, rfl⟩

/-! ## Properties of the room lobby -/

/-- The byte length of a string is zero exactly for the empty string. -/
theorem utf8ByteSize_eq_zero_iff (s : String) : s.utf8ByteSize = 0 ↔ s = "" := by
  rcases s with ⟨cs⟩
  cases cs with
  | nil => simp [String.utf8ByteSize, String.utf8ByteSize.go]
  | cons c cs =>
      have hc : 0 < c.utf8Size := Char.utf8Size_pos c
      constructor
      · intro h
        simp only [String.utf8ByteSize, String.utf8ByteSize.go] at h
        omega
      · intro h
        have h2 := congrArg String.data h
        simp at h2

/-- Membership in the conflict set after `onJoinFailed`, as a function of the
error. -/
theorem onJoinFailed_nickNamesWithConflict (v : roomViewLobby) (e : GoError) :
    (v.onJoinFailed e).nickNamesWithConflict
      = match e with
        | GoError.lobbyErr _ n GoError.errJoinNickNameConflict =>
            insert n v.nickNamesWithConflict
        | _ => v.nickNamesWithConflict := by
  cases e with
  | lobbyErr room n t =>
      by_cases ht : t = GoError.errJoinNickNameConflict
      · subst ht
        by_cases hn : n ∈ v.nickNamesWithConflict <;>
          by_cases hnot : v.notification = true <;>
          simp [roomViewLobby.onJoinFailed, GoError.asMucRoomLobbyErr, hn, hnot,
            roomViewLobby.notifyOnError, roomViewLobby.enableFields,
            roomViewLobby.hideSpinner]
      · cases t <;>
          first
          | exact absurd rfl ht
          | (by_cases hnot : v.notification = true <;>
              simp [roomViewLobby.onJoinFailed, GoError.asMucRoomLobbyErr, hnot,
                roomViewLobby.notifyOnError, roomViewLobby.enableFields,
                roomViewLobby.hideSpinner])
  | _ =>
      by_cases hnot : v.notification = true <;>
        simp [roomViewLobby.onJoinFailed, GoError.asMucRoomLobbyErr, hnot,
          roomViewLobby.notifyOnError, roomViewLobby.enableFields,
          roomViewLobby.hideSpinner]

/-- The conflict set after `onJoinFailed` on a nickname conflict. -/
theorem onJoinFailed_conflict (v : roomViewLobby) (room : jid.Bare) (n : String) :
    (v.onJoinFailed (GoError.lobbyErr room n GoError.errJoinNickNameConflict)).nickNamesWithConflict
      = insert n v.nickNamesWithConflict := by
  rw [onJoinFailed_nickNamesWithConflict]

/-- The conflict set after `onJoinFailed` on anything but a nickname conflict. -/
theorem onJoinFailed_not_conflict (v : roomViewLobby) (e : GoError)
    (h : ∀ room n, e ≠ GoError.lobbyErr room n GoError.errJoinNickNameConflict) :
    (v.onJoinFailed e).nickNamesWithConflict = v.nickNamesWithConflict := by
  rw [onJoinFailed_nickNamesWithConflict]
  split
  · rename_i room n
    exact absurd rfl (h room n)
  · rfl

/-- The method `onJoinFailed` makes no call to `session.JoinRoom`. -/
theorem onJoinFailed_joinRoomCalls (v : roomViewLobby) (e : GoError) :
    (v.onJoinFailed e).joinRoomCalls = v.joinRoomCalls := by
  cases e with
  | lobbyErr room n t =>
      by_cases ht : t = GoError.errJoinNickNameConflict
      · subst ht
        by_cases hn : n ∈ v.nickNamesWithConflict <;>
          by_cases hnot : v.notification = true <;>
          simp [roomViewLobby.onJoinFailed, GoError.asMucRoomLobbyErr, hn, hnot,
            roomViewLobby.notifyOnError, roomViewLobby.enableFields,
            roomViewLobby.hideSpinner]
      · by_cases hnot : v.notification = true <;>
          simp [roomViewLobby.onJoinFailed, GoError.asMucRoomLobbyErr, hnot, ht,
            roomViewLobby.notifyOnError, roomViewLobby.enableFields,
            roomViewLobby.hideSpinner]
  | _ =>
      by_cases hnot : v.notification = true <;>
        simp [roomViewLobby.onJoinFailed, GoError.asMucRoomLobbyErr, hnot,
          roomViewLobby.notifyOnError, roomViewLobby.enableFields,
          roomViewLobby.hideSpinner]

/-- The join button after `onJoinFailed` on a nickname conflict. -/
theorem onJoinFailed_conflict_joinButton (v : roomViewLobby) (room : jid.Bare) (n : String) :
    (v.onJoinFailed (GoError.lobbyErr room n GoError.errJoinNickNameConflict)).joinButtonSensitive
      = false := by
  by_cases hn : n ∈ v.nickNamesWithConflict <;>
    by_cases hnot : v.notification = true <;>
    simp [roomViewLobby.onJoinFailed, GoError.asMucRoomLobbyErr, hn, hnot,
      roomViewLobby.notifyOnError, roomViewLobby.enableFields,
      roomViewLobby.hideSpinner]

/-- C4: for every nickname text and every conflict set,
`enableJoinIfConditionsAreMet` leaves the join button sensitive if and only if
the nickname is non-empty and is not in the nickname conflict set. -/
theorem enableJoinIfConditionsAreMet_sensitive_iff (v : roomViewLobby) :
    v.enableJoinIfConditionsAreMet.joinButtonSensitive = true
      ↔ v.nickNameEntryText ≠ "" ∧ v.nickNameEntryText ∉ v.nickNamesWithConflict := by
  have hz := utf8ByteSize_eq_zero_iff v.nickNameEntryText
  by_cases hmem : v.nickNameEntryText ∈ v.nickNamesWithConflict
  · simp [roomViewLobby.enableJoinIfConditionsAreMet, roomViewLobby.clearErrors, hmem]
  · simp [roomViewLobby.enableJoinIfConditionsAreMet, roomViewLobby.clearErrors, hmem, hz]

/-- C5: for every conflict set `S` and every join failure `e`, after
`onJoinFailed e` the conflict set is `S ∪ {n}` when `e` is a nickname-conflict
error carrying `n` and is `S` for every other failure (generic join failure,
registration required, no connection, wrapped or not, and any other error);
the set never loses a member, and handling the same failure twice gives the
same set as handling it once. -/
theorem onJoinFailed_conflict_set (v : roomViewLobby) (e : GoError) (room : jid.Bare)
    (n msg : String) :
    (v.onJoinFailed (newMUCRoomLobbyErr room n GoError.errJoinNickNameConflict)).nickNamesWithConflict
        = v.nickNamesWithConflict ∪ {n}
      ∧ (v.onJoinFailed e).nickNamesWithConflict
          = (match e with
             | GoError.lobbyErr _ k GoError.errJoinNickNameConflict =>
                 v.nickNamesWithConflict ∪ {k}
             | _ => v.nickNamesWithConflict)
      ∧ (v.onJoinFailed (newMUCRoomLobbyErr room n GoError.errJoinRequestFailed)).nickNamesWithConflict
          = v.nickNamesWithConflict
      ∧ (v.onJoinFailed (newMUCRoomLobbyErr room n GoError.errJoinOnlyMembers)).nickNamesWithConflict
          = v.nickNamesWithConflict
      ∧ (v.onJoinFailed (newMUCRoomLobbyErr room n GoError.errJoinNoConnection)).nickNamesWithConflict
          = v.nickNamesWithConflict
      ∧ (v.onJoinFailed GoError.errJoinNoConnection).nickNamesWithConflict
          = v.nickNamesWithConflict
      ∧ (v.onJoinFailed (GoError.other msg)).nickNamesWithConflict = v.nickNamesWithConflict
      ∧ v.nickNamesWithConflict ⊆ (v.onJoinFailed e).nickNamesWithConflict
      ∧ ((v.onJoinFailed e).onJoinFailed e).nickNamesWithConflict
          = (v.onJoinFailed e).nickNamesWithConflict := by
  have hins : ∀ (S : Finset String) (k : String), insert k S = S ∪ {k} := by
    intro S k
    ext x
    simp [or_comm]
  have hne : ∀ t : GoError, t ≠ GoError.errJoinNickNameConflict →
      (v.onJoinFailed (GoError.lobbyErr room n t)).nickNamesWithConflict
        = v.nickNamesWithConflict := by
    intro t ht
    apply onJoinFailed_not_conflict
    intro r k hk
    injection hk with _ _ h3
    exact ht h3
  refine ⟨?_, ?_, ?_, ?_, ?_, ?_, ?_, ?_, ?_⟩
  · rw [newMUCRoomLobbyErr, onJoinFailed_conflict, hins]
  · rw [onJoinFailed_nickNamesWithConflict]
    split
    · exact hins _ _
    · rfl
  · exact hne _ (by decide)
  · exact hne _ (by decide)
  · exact hne _ (by decide)
  · exact onJoinFailed_not_conflict v _ (fun _ _ h => by cases h)
  · exact onJoinFailed_not_conflict v _ (fun _ _ h => by cases h)
  · rw [onJoinFailed_nickNamesWithConflict]
    split
    · exact Finset.subset_insert _ _
    · exact Finset.Subset.refl _
  · by_cases hc : ∃ r k, e = GoError.lobbyErr r k GoError.errJoinNickNameConflict
    · obtain ⟨r, k, rfl⟩ := hc
      rw [onJoinFailed_conflict, onJoinFailed_conflict]
      simp
    · exact onJoinFailed_not_conflict _ e (fun r k h => hc ⟨r, k, h⟩)

/-- C6, as stated, fails: `onJoin` has no guard. Called on a lobby whose
nickname is empty it sends the join request `(room1, "")`, and called on a
lobby whose nickname `bob` is in the conflict set it sends `(room1, "bob")`. -/
theorem onJoin_sends_request_for_rejected_nickname :
    (exampleLobby "" ∅).nickNameEntryText = ""
      ∧ ((exampleLobby "" ∅).joinAttempt none).1.joinRoomCalls
          = [({ repr := "room1" }, "")]
      ∧ "bob" ∈ (exampleLobby "bob" {"bob"}).nickNamesWithConflict
      ∧ ((exampleLobby "bob" {"bob"}).joinAttempt none).1.joinRoomCalls
          = [({ repr := "room1" }, "bob")] := by
  refine ⟨rfl, rfl, ?_, rfl⟩
  simp [exampleLobby]

/-- C6, amended: `onJoin` rejects nothing; what the lobby does locally is to
disable the join button. For every lobby state, a join attempt (`onJoin`
followed by the `sendRoomEnterRequest` goroutine it starts) sends exactly one
join request, for the room of the lobby and whatever nickname the entry holds,
an empty or conflicting nickname included: `onJoin` starts
`sendRoomEnterRequest` with the nickname of the entry without testing it, and
`sendRoomEnterRequest` calls `session.JoinRoom` with the nickname it is given
without testing it. For every lobby state whose nickname is empty or in the
conflict set, `enableJoinIfConditionsAreMet` leaves the join button
insensitive; and `onJoinFailed` on a nickname conflict for `n` leaves `n` in
the conflict set and the join button insensitive. -/
theorem onJoin_sends_whatever_nickname (v : roomViewLobby) (joinRoomErr : Option GoError)
    (room : jid.Bare) (n : String) :
    (v.joinAttempt joinRoomErr).1.joinRoomCalls
        = v.joinRoomCalls ++ [(v.ident, v.nickNameEntryText)]
      ∧ ((v.nickNameEntryText = "" ∨ v.nickNameEntryText ∈ v.nickNamesWithConflict) →
          v.enableJoinIfConditionsAreMet.joinButtonSensitive = false)
      ∧ n ∈ (v.onJoinFailed
            (newMUCRoomLobbyErr room n GoError.errJoinNickNameConflict)).nickNamesWithConflict
      ∧ (v.onJoinFailed
            (newMUCRoomLobbyErr room n GoError.errJoinNickNameConflict)).joinButtonSensitive
          = false
      ∧ v.onJoin.2 = [LobbyGoroutine.sendRoomEnterRequest v.nickNameEntryText,
                      LobbyGoroutine.whenEnterRequestHasBeenResolved v.nickNameEntryText]
      ∧ (v.sendRoomEnterRequest n joinRoomErr).1.joinRoomCalls
          = v.joinRoomCalls ++ [(v.ident, n)] := by
  refine ⟨?_, ?_, ?_, ?_, rfl, ?_⟩
  rotate_right
  · cases joinRoomErr <;> rfl
  · cases joinRoomErr <;> rfl
  · intro h
    have hz := utf8ByteSize_eq_zero_iff v.nickNameEntryText
    by_cases hmem : v.nickNameEntryText ∈ v.nickNamesWithConflict
    · simp [roomViewLobby.enableJoinIfConditionsAreMet, roomViewLobby.clearErrors, hmem]
    · rcases h with h | h
      · have h0 : v.nickNameEntryText.utf8ByteSize = 0 := hz.mpr h
        simp [roomViewLobby.enableJoinIfConditionsAreMet, roomViewLobby.clearErrors, hmem,
          h0]
      · exact absurd h hmem
  · rw [newMUCRoomLobbyErr, onJoinFailed_conflict]
    simp
  · exact onJoinFailed_conflict_joinButton v room n

/-- Witness for C6 amended: the lobby of `room1` with an empty nickname. -/
theorem onJoin_sends_whatever_nickname_witness :
    ((exampleLobby "" ∅).nickNameEntryText = ""
        ∨ (exampleLobby "" ∅).nickNameEntryText ∈ (exampleLobby "" ∅).nickNamesWithConflict)
      ∧ (exampleLobby "" ∅).enableJoinIfConditionsAreMet.joinButtonSensitive = false
      ∧ ((exampleLobby "" ∅).joinAttempt none).1.joinRoomCalls
          = [({ repr := "room1" }, "")] :=
  ⟨Or.inl rfl,
   (onJoin_sends_whatever_nickname (exampleLobby "" ∅) none { repr := "room1" } "bob").2.1
     (Or.inl rfl),
   (onJoin_sends_whatever_nickname (exampleLobby "" ∅) none { repr := "room1" } "bob").1⟩

/-- C7: each transport event handler performs exactly one channel send, on the
channel of its outcome. `onRoomOccupantJoinedReceived` sends `true` on the
success channel and nothing on the failure channel; `onJoinErrorRecevied`,
`onNicknameConflictReceived` and `onRegistrationRequiredReceived` send nothing
on the success channel and send on the failure channel a lobby error of kind
`errJoinRequestFailed`, `errJoinNickNameConflict` and `errJoinOnlyMembers`
respectively, carrying the room and nickname given to the handler. -/
theorem transport_events_resolve_on_one_channel (room : jid.Bare) (nickname : String) :
    (sentOnJoinChannel roomViewLobby.onRoomOccupantJoinedReceived = [true]
        ∧ sentOnJoinErrorChannel roomViewLobby.onRoomOccupantJoinedReceived = [])
      ∧ (sentOnJoinChannel (roomViewLobby.onJoinErrorRecevied room nickname) = []
        ∧ sentOnJoinErrorChannel (roomViewLobby.onJoinErrorRecevied room nickname)
            = [GoError.lobbyErr room nickname GoError.errJoinRequestFailed]
        ∧ (GoError.lobbyErr room nickname GoError.errJoinRequestFailed).asMucRoomLobbyErr
            = some { room := room, nickname := nickname,
                     errType := GoError.errJoinRequestFailed })
      ∧ (sentOnJoinChannel (roomViewLobby.onNicknameConflictReceived room nickname) = []
        ∧ sentOnJoinErrorChannel (roomViewLobby.onNicknameConflictReceived room nickname)
            = [GoError.lobbyErr room nickname GoError.errJoinNickNameConflict]
        ∧ (GoError.lobbyErr room nickname GoError.errJoinNickNameConflict).asMucRoomLobbyErr
            = some { room := room, nickname := nickname,
                     errType := GoError.errJoinNickNameConflict })
      ∧ (sentOnJoinChannel (roomViewLobby.onRegistrationRequiredReceived room nickname) = []
        ∧ sentOnJoinErrorChannel (roomViewLobby.onRegistrationRequiredReceived room nickname)
            = [GoError.lobbyErr room nickname GoError.errJoinOnlyMembers]
        ∧ (GoError.lobbyErr room nickname GoError.errJoinOnlyMembers).asMucRoomLobbyErr
            = some { room := room, nickname := nickname,
                     errType := GoError.errJoinOnlyMembers }) := by
  refine ⟨⟨rfl, rfl⟩, ⟨rfl, rfl, rfl⟩, ⟨rfl, rfl, rfl⟩, ⟨rfl, rfl, rfl⟩⟩

/-- C8, the code at a failing send: when `session.JoinRoom` returns an error,
`sendRoomEnterRequest` sends the bare sentinel `errJoinNoConnection` on the
failure channel, not a `*mucRoomLobbyErr`. The type assertion of `onJoinFailed`
fails on it, so the view shows the message of the unknown-error branch, which
is not the message `getUserErrorMessage` gives for a lobby error of kind
`errJoinNoConnection`. -/
theorem sendRoomEnterRequest_failure_is_untyped (v : roomViewLobby) (nickName : String)
    (e : GoError) :
    (v.sendRoomEnterRequest nickName (some e)).2
        = [JoinResolution.onJoinErrorChannel GoError.errJoinNoConnection]
      ∧ GoError.errJoinNoConnection.asMucRoomLobbyErr = none
      ∧ (v.resolveJoin nickName
            (JoinResolution.onJoinErrorChannel GoError.errJoinNoConnection)).errorNotif
          = some (i18n.Message.Local "An unknown error occurred while trying to join the room, please check your connection or try again.")
      ∧ (v.resolveJoin nickName
            (JoinResolution.onJoinErrorChannel GoError.errJoinNoConnection)).errorNotif
          ≠ some (roomViewLobby.getUserErrorMessage
              { room := v.ident, nickname := nickName,
                errType := GoError.errJoinNoConnection }) := by
  have hmsg : (v.resolveJoin nickName
      (JoinResolution.onJoinErrorChannel GoError.errJoinNoConnection)).errorNotif
        = some (i18n.Message.Local "An unknown error occurred while trying to join the room, please check your connection or try again.") := by
    by_cases hnot : v.notification = true <;>
      simp [roomViewLobby.resolveJoin, roomViewLobby.whenEnterRequestHasBeenResolved,
        roomViewLobby.runUITask, roomViewLobby.onJoinFailed, GoError.asMucRoomLobbyErr,
        roomViewLobby.notifyOnError, roomViewLobby.enableFields,
        roomViewLobby.hideSpinner, hnot]
  refine ⟨rfl, rfl, hmsg, ?_⟩
  rw [hmsg]
  simp [roomViewLobby.getUserErrorMessage]

/-! ## Properties of the creation view -/

/-- The reports of the check among steps extended by one step. -/
theorem checkReports_snoc (h : List AttemptEvent) (e : AttemptEvent) :
    checkReports (h ++ [e])
      = checkReports h ++ (match e with
          | AttemptEvent.innerRecvEc _ => [e]
          | AttemptEvent.innerRecvRc _ => [e]
          | _ => []) := by
  cases e <;> simp [checkReports, List.filter_append]

/-- The create results among steps extended by one step. -/
theorem createResults_snoc (h : List AttemptEvent) (e : AttemptEvent) :
    createResults (h ++ [e])
      = createResults h ++ (match e with
          | AttemptEvent.creatorRecv _ => [e]
          | _ => []) := by
  cases e <;> simp [createResults, List.filter_append]

/-- The invariant is preserved by the step `outerCheck`. -/
theorem attemptInv_step_outerCheck (aj : Bool) (c : Option Nat) (h : List AttemptEvent)
    (q ts : List CreateUITask) (a a1 : CreateAttempt) (hinv : AttemptInv h q a)
    (hs : attemptStep aj c a AttemptEvent.outerCheck = some (a1, ts)) :
    AttemptInv (h ++ [AttemptEvent.outerCheck]) (q ++ ts) a1 := by
  obtain ⟨ca, roomID, outer, inner, creator, hr, cr, errs, sv, jr⟩ := a
  unfold AttemptInv at hinv ⊢
  rw [checkReports_snoc, createResults_snoc]
  rcases outer with _ | _ | ⟨_ | oc⟩ | _ <;>
    simp [attemptStep, CreateAttempt.checkIfRoomExists, CreateAttempt.checkIfRoomExistsOnEc,
      CreateAttempt.checkIfRoomExistsOnRc, CreateAttempt.accountCreateRoom,
      CreateAttempt.accountCreateRoomOnResult, CreateAttempt.onCreateRoomFinished] at hs
  all_goals
    obtain ⟨rfl, rfl⟩ := hs
    rcases inner with _ | _ | ⟨_ | ic⟩ | _ | _ | _ <;>
      rcases creator with _ | _ | ⟨_ | rx⟩ | _ <;>
      simp_all [OuterRunning, NoOutcome]

/-- The invariant is preserved by the step `outerSelect`. -/
theorem attemptInv_step_outerSelect (aj : Bool) (c : Option Nat) (h : List AttemptEvent)
    (q ts : List CreateUITask) (a a1 : CreateAttempt) (hinv : AttemptInv h q a)
    (hs : attemptStep aj c a AttemptEvent.outerSelect = some (a1, ts)) :
    AttemptInv (h ++ [AttemptEvent.outerSelect]) (q ++ ts) a1 := by
  obtain ⟨ca, roomID, outer, inner, creator, hr, cr, errs, sv, jr⟩ := a
  unfold AttemptInv at hinv ⊢
  rw [checkReports_snoc, createResults_snoc]
  rcases outer with _ | _ | ⟨_ | oc⟩ | _ <;>
    simp [attemptStep, CreateAttempt.checkIfRoomExists, CreateAttempt.checkIfRoomExistsOnEc,
      CreateAttempt.checkIfRoomExistsOnRc, CreateAttempt.accountCreateRoom,
      CreateAttempt.accountCreateRoomOnResult, CreateAttempt.onCreateRoomFinished] at hs
  all_goals
    obtain ⟨rfl, rfl⟩ := hs
    rcases inner with _ | _ | ⟨_ | ic⟩ | _ | _ | _ <;>
      rcases creator with _ | _ | ⟨_ | rx⟩ | _ <;>
      simp_all [OuterRunning, NoOutcome]

/-- The invariant is preserved by the step `innerSelect`. -/
theorem attemptInv_step_innerSelect (aj : Bool) (c : Option Nat) (h : List AttemptEvent)
    (q ts : List CreateUITask) (a a1 : CreateAttempt) (hinv : AttemptInv h q a)
    (hs : attemptStep aj c a AttemptEvent.innerSelect = some (a1, ts)) :
    AttemptInv (h ++ [AttemptEvent.innerSelect]) (q ++ ts) a1 := by
  obtain ⟨ca, roomID, outer, inner, creator, hr, cr, errs, sv, jr⟩ := a
  unfold AttemptInv at hinv ⊢
  rw [checkReports_snoc, createResults_snoc]
  rcases inner with _ | _ | ⟨_ | ic⟩ | _ | _ | _ <;>
    simp [attemptStep, CreateAttempt.checkIfRoomExists, CreateAttempt.checkIfRoomExistsOnEc,
      CreateAttempt.checkIfRoomExistsOnRc, CreateAttempt.accountCreateRoom,
      CreateAttempt.accountCreateRoomOnResult, CreateAttempt.onCreateRoomFinished] at hs
  all_goals
    obtain ⟨rfl, rfl⟩ := hs
    rcases outer with _ | _ | ⟨_ | oc⟩ | _ <;>
      rcases creator with _ | _ | ⟨_ | rx⟩ | _ <;>
      simp_all [OuterRunning, NoOutcome]

/-- The invariant is preserved by the step `innerRecvEc`. -/
theorem attemptInv_step_innerRecvEc (aj : Bool) (c : Option Nat) (h : List AttemptEvent)
    (q ts : List CreateUITask) (a a1 : CreateAttempt) (x : Option GoError) (hinv : AttemptInv h q a)
    (hs : attemptStep aj c a (AttemptEvent.innerRecvEc x) = some (a1, ts)) :
    AttemptInv (h ++ [AttemptEvent.innerRecvEc x]) (q ++ ts) a1 := by
  obtain ⟨ca, roomID, outer, inner, creator, hr, cr, errs, sv, jr⟩ := a
  unfold AttemptInv at hinv ⊢
  rw [checkReports_snoc, createResults_snoc]
  rcases inner with _ | _ | ⟨_ | ic⟩ | _ | _ | _ <;>
    simp [attemptStep, CreateAttempt.checkIfRoomExists, CreateAttempt.checkIfRoomExistsOnEc,
      CreateAttempt.checkIfRoomExistsOnRc, CreateAttempt.accountCreateRoom,
      CreateAttempt.accountCreateRoomOnResult, CreateAttempt.onCreateRoomFinished] at hs
  all_goals
    obtain ⟨rfl, rfl⟩ := hs
    rcases outer with _ | _ | ⟨_ | oc⟩ | _ <;>
      rcases creator with _ | _ | ⟨_ | rx⟩ | _ <;>
      simp_all [OuterRunning, NoOutcome]

/-- The invariant is preserved by the step `innerRecvRc`. -/
theorem attemptInv_step_innerRecvRc (aj : Bool) (c : Option Nat) (h : List AttemptEvent)
    (q ts : List CreateUITask) (a a1 : CreateAttempt) (b : Bool) (hinv : AttemptInv h q a)
    (hs : attemptStep aj c a (AttemptEvent.innerRecvRc b) = some (a1, ts)) :
    AttemptInv (h ++ [AttemptEvent.innerRecvRc b]) (q ++ ts) a1 := by
  obtain ⟨ca, roomID, outer, inner, creator, hr, cr, errs, sv, jr⟩ := a
  unfold AttemptInv at hinv ⊢
  rw [checkReports_snoc, createResults_snoc]
  cases b <;> rcases inner with _ | _ | ⟨_ | ic⟩ | _ | _ | _ <;>
    simp [attemptStep, CreateAttempt.checkIfRoomExists, CreateAttempt.checkIfRoomExistsOnEc,
      CreateAttempt.checkIfRoomExistsOnRc, CreateAttempt.accountCreateRoom,
      CreateAttempt.accountCreateRoomOnResult, CreateAttempt.onCreateRoomFinished] at hs
  all_goals
    obtain ⟨rfl, rfl⟩ := hs
    rcases outer with _ | _ | ⟨_ | oc⟩ | _ <;>
      rcases creator with _ | _ | ⟨_ | rx⟩ | _ <;>
      simp_all [OuterRunning, NoOutcome]

/-- The invariant is preserved by the step `innerRecvCancel`. -/
theorem attemptInv_step_innerRecvCancel (aj : Bool) (c : Option Nat) (h : List AttemptEvent)
    (q ts : List CreateUITask) (a a1 : CreateAttempt) (hinv : AttemptInv h q a)
    (hs : attemptStep aj c a AttemptEvent.innerRecvCancel = some (a1, ts)) :
    AttemptInv (h ++ [AttemptEvent.innerRecvCancel]) (q ++ ts) a1 := by
  obtain ⟨ca, roomID, outer, inner, creator, hr, cr, errs, sv, jr⟩ := a
  unfold AttemptInv at hinv ⊢
  rw [checkReports_snoc, createResults_snoc]
  rcases inner with _ | _ | ⟨_ | ic⟩ | _ | _ | _ <;>
    simp [attemptStep, CreateAttempt.checkIfRoomExists, CreateAttempt.checkIfRoomExistsOnEc,
      CreateAttempt.checkIfRoomExistsOnRc, CreateAttempt.accountCreateRoom,
      CreateAttempt.accountCreateRoomOnResult, CreateAttempt.onCreateRoomFinished] at hs
  all_goals
    obtain ⟨rfl, rfl⟩ := hs
    rcases outer with _ | _ | ⟨_ | oc⟩ | _ <;>
      rcases creator with _ | _ | ⟨_ | rx⟩ | _ <;>
      simp_all [OuterRunning, NoOutcome]

/-- The invariant is preserved by the step `outerRecvSc`. -/
theorem attemptInv_step_outerRecvSc (aj : Bool) (c : Option Nat) (h : List AttemptEvent)
    (q ts : List CreateUITask) (a a1 : CreateAttempt) (hinv : AttemptInv h q a)
    (hs : attemptStep aj c a AttemptEvent.outerRecvSc = some (a1, ts)) :
    AttemptInv (h ++ [AttemptEvent.outerRecvSc]) (q ++ ts) a1 := by
  obtain ⟨ca, roomID, outer, inner, creator, hr, cr, errs, sv, jr⟩ := a
  unfold AttemptInv at hinv ⊢
  rw [checkReports_snoc, createResults_snoc]
  rcases outer with _ | _ | ⟨_ | oc⟩ | _ <;>
    rcases inner with _ | _ | ⟨_ | ic⟩ | _ | _ | _ <;>
    simp [attemptStep, CreateAttempt.checkIfRoomExists, CreateAttempt.checkIfRoomExistsOnEc,
      CreateAttempt.checkIfRoomExistsOnRc, CreateAttempt.accountCreateRoom,
      CreateAttempt.accountCreateRoomOnResult, CreateAttempt.onCreateRoomFinished] at hs
  all_goals
    obtain ⟨rfl, rfl⟩ := hs
    rcases creator with _ | _ | ⟨_ | rx⟩ | _ <;>
      simp_all [OuterRunning, NoOutcome]

/-- The invariant is preserved by the step `outerRecvEr`. -/
theorem attemptInv_step_outerRecvEr (aj : Bool) (c : Option Nat) (h : List AttemptEvent)
    (q ts : List CreateUITask) (a a1 : CreateAttempt) (hinv : AttemptInv h q a)
    (hs : attemptStep aj c a AttemptEvent.outerRecvEr = some (a1, ts)) :
    AttemptInv (h ++ [AttemptEvent.outerRecvEr]) (q ++ ts) a1 := by
  obtain ⟨ca, roomID, outer, inner, creator, hr, cr, errs, sv, jr⟩ := a
  unfold AttemptInv at hinv ⊢
  rw [checkReports_snoc, createResults_snoc]
  rcases outer with _ | _ | ⟨_ | oc⟩ | _ <;>
    rcases inner with _ | _ | ⟨_ | ic⟩ | _ | _ | _ <;>
    simp [attemptStep, CreateAttempt.checkIfRoomExists, CreateAttempt.checkIfRoomExistsOnEc,
      CreateAttempt.checkIfRoomExistsOnRc, CreateAttempt.accountCreateRoom,
      CreateAttempt.accountCreateRoomOnResult, CreateAttempt.onCreateRoomFinished] at hs
  all_goals
    obtain ⟨rfl, rfl⟩ := hs
    rcases creator with _ | _ | ⟨_ | rx⟩ | _ <;>
      simp_all [OuterRunning, NoOutcome]

/-- The invariant is preserved by the step `outerRecvCancel`. -/
theorem attemptInv_step_outerRecvCancel (aj : Bool) (c : Option Nat) (h : List AttemptEvent)
    (q ts : List CreateUITask) (a a1 : CreateAttempt) (hinv : AttemptInv h q a)
    (hs : attemptStep aj c a AttemptEvent.outerRecvCancel = some (a1, ts)) :
    AttemptInv (h ++ [AttemptEvent.outerRecvCancel]) (q ++ ts) a1 := by
  obtain ⟨ca, roomID, outer, inner, creator, hr, cr, errs, sv, jr⟩ := a
  unfold AttemptInv at hinv ⊢
  rw [checkReports_snoc, createResults_snoc]
  rcases outer with _ | _ | ⟨_ | oc⟩ | _ <;>
    simp [attemptStep, CreateAttempt.checkIfRoomExists, CreateAttempt.checkIfRoomExistsOnEc,
      CreateAttempt.checkIfRoomExistsOnRc, CreateAttempt.accountCreateRoom,
      CreateAttempt.accountCreateRoomOnResult, CreateAttempt.onCreateRoomFinished] at hs
  all_goals
    obtain ⟨rfl, rfl⟩ := hs
    rcases inner with _ | _ | ⟨_ | ic⟩ | _ | _ | _ <;>
      rcases creator with _ | _ | ⟨_ | rx⟩ | _ <;>
      simp_all [OuterRunning, NoOutcome]

/-- The invariant is preserved by the step `creatorRecv`. -/
theorem attemptInv_step_creatorRecv (aj : Bool) (c : Option Nat) (h : List AttemptEvent)
    (q ts : List CreateUITask) (a a1 : CreateAttempt) (x : Option GoError) (hinv : AttemptInv h q a)
    (hs : attemptStep aj c a (AttemptEvent.creatorRecv x) = some (a1, ts)) :
    AttemptInv (h ++ [AttemptEvent.creatorRecv x]) (q ++ ts) a1 := by
  obtain ⟨ca, roomID, outer, inner, creator, hr, cr, errs, sv, jr⟩ := a
  unfold AttemptInv at hinv ⊢
  rw [checkReports_snoc, createResults_snoc]
  rcases creator with _ | _ | ⟨_ | rx⟩ | _ <;>
    simp [attemptStep, CreateAttempt.checkIfRoomExists, CreateAttempt.checkIfRoomExistsOnEc,
      CreateAttempt.checkIfRoomExistsOnRc, CreateAttempt.accountCreateRoom,
      CreateAttempt.accountCreateRoomOnResult, CreateAttempt.onCreateRoomFinished] at hs
  all_goals
    obtain ⟨rfl, rfl⟩ := hs
    rcases outer with _ | _ | ⟨_ | oc⟩ | _ <;>
      rcases inner with _ | _ | ⟨_ | ic⟩ | _ | _ | _ <;>
      simp_all [OuterRunning, NoOutcome]

/-- The invariant is preserved by the step `creatorRun`. -/
theorem attemptInv_step_creatorRun (aj : Bool) (c : Option Nat) (h : List AttemptEvent)
    (q ts : List CreateUITask) (a a1 : CreateAttempt) (hinv : AttemptInv h q a)
    (hs : attemptStep aj c a AttemptEvent.creatorRun = some (a1, ts)) :
    AttemptInv (h ++ [AttemptEvent.creatorRun]) (q ++ ts) a1 := by
  obtain ⟨ca, roomID, outer, inner, creator, hr, cr, errs, sv, jr⟩ := a
  unfold AttemptInv at hinv ⊢
  rw [checkReports_snoc, createResults_snoc]
  cases aj <;> rcases creator with _ | _ | ⟨_ | rx⟩ | _ <;>
    simp [attemptStep, CreateAttempt.checkIfRoomExists, CreateAttempt.checkIfRoomExistsOnEc,
      CreateAttempt.checkIfRoomExistsOnRc, CreateAttempt.accountCreateRoom,
      CreateAttempt.accountCreateRoomOnResult, CreateAttempt.onCreateRoomFinished] at hs
  all_goals
    obtain ⟨rfl, rfl⟩ := hs
    rcases outer with _ | _ | ⟨_ | oc⟩ | _ <;>
      rcases inner with _ | _ | ⟨_ | ic⟩ | _ | _ | _ <;>
      simp_all [OuterRunning, NoOutcome]

/-- The invariant is preserved by every step of a goroutine of the call. -/
theorem attemptInv_step (aj : Bool) (c : Option Nat) (h : List AttemptEvent)
    (q ts : List CreateUITask) (a a1 : CreateAttempt) (e : AttemptEvent)
    (hinv : AttemptInv h q a) (hs : attemptStep aj c a e = some (a1, ts)) :
    AttemptInv (h ++ [e]) (q ++ ts) a1 := by
  cases e with
  | outerCheck => exact attemptInv_step_outerCheck aj c h q ts a a1 hinv hs
  | outerSelect => exact attemptInv_step_outerSelect aj c h q ts a a1 hinv hs
  | innerSelect => exact attemptInv_step_innerSelect aj c h q ts a a1 hinv hs
  | innerRecvEc x => exact attemptInv_step_innerRecvEc aj c h q ts a a1 x hinv hs
  | innerRecvRc b => exact attemptInv_step_innerRecvRc aj c h q ts a a1 b hinv hs
  | innerRecvCancel => exact attemptInv_step_innerRecvCancel aj c h q ts a a1 hinv hs
  | outerRecvSc => exact attemptInv_step_outerRecvSc aj c h q ts a a1 hinv hs
  | outerRecvEr => exact attemptInv_step_outerRecvEr aj c h q ts a a1 hinv hs
  | outerRecvCancel => exact attemptInv_step_outerRecvCancel aj c h q ts a a1 hinv hs
  | creatorRecv x => exact attemptInv_step_creatorRecv aj c h q ts a a1 x hinv hs
  | creatorRun => exact attemptInv_step_creatorRun aj c h q ts a a1 hinv hs

/-- The invariant is preserved when the UI thread runs the oldest queued closure
of the call. -/
theorem attemptInv_runUITask (h : List AttemptEvent) (q : List CreateUITask)
    (a : CreateAttempt) (t : CreateUITask) (hinv : AttemptInv h (t :: q) a) :
    AttemptInv h q (a.runUITask t) := by
  obtain ⟨ca, roomID, outer, inner, creator, hr, cr, errs, sv, jr⟩ := a
  unfold AttemptInv at hinv ⊢
  cases t <;>
    rcases creator with _ | _ | ⟨_ | rx⟩ | _ <;>
    simp_all [OuterRunning, NoOutcome, CreateAttempt.runUITask]

/-- The invariant holds for a call of `createRoom` that has just been made. -/
theorem attemptInv_start (ca : account) (roomID : jid.Bare) :
    AttemptInv [] [] (CreateAttempt.start ca roomID) := by
  simp [AttemptInv, CreateAttempt.start, NoOutcome, createResults, checkReports]

/-- The steps of a call in a schedule extended by one event. -/
theorem attemptEvents_snoc (k : Nat) (es : List CreateEvent) (e : CreateEvent) :
    attemptEvents k (es ++ [e])
      = attemptEvents k es ++ (match e with
          | CreateEvent.attempt j le => if j = k then [le] else []
          | _ => []) := by
  cases e with
  | attempt j le =>
      by_cases hj : j = k <;> simp [attemptEvents, List.filterMap_append, hj]
  | _ => simp [attemptEvents, List.filterMap_append]

/-- The closures of a call in a queue extended by the closures `ts` of the call
number `j`. -/
theorem tasksOf_append_map (k j : Nat) (q : List (Nat × CreateUITask))
    (ts : List CreateUITask) :
    tasksOf k (q ++ ts.map (fun t => (j, t))) = tasksOf k q ++ (if j = k then ts else []) := by
  by_cases hj : j = k
  · subst hj
    simp [tasksOf, List.filterMap_append, List.filterMap_map, Function.comp_def]
  · simp [tasksOf, List.filterMap_append, List.filterMap_map, Function.comp_def, hj]

/-- The closures of a call in a queue with one more closure in front. -/
theorem tasksOf_cons (k j : Nat) (t : CreateUITask) (q : List (Nat × CreateUITask)) :
    tasksOf k ((j, t) :: q) = (if j = k then [t] else []) ++ tasksOf k q := by
  by_cases hj : j = k <;> simp [tasksOf, List.filterMap_cons, hj]

/-- Running a schedule extended by one event. -/
theorem createRun_snoc (v : mucCreateRoomView) (es : List CreateEvent) (e : CreateEvent) :
    createRun v (es ++ [e]) = (createRun v es).bind (fun s => createStep s e) := by
  induction es generalizing v with
  | nil =>
      simp only [List.nil_append, createRun, Option.some_bind]
      cases createStep v e <;> rfl
  | cons a es ih =>
      simp only [List.cons_append, createRun]
      cases createStep v a with
      | none => rfl
      | some w => simpa using ih w

/-- Running two schedules in sequence. -/
theorem createRun_append (v : mucCreateRoomView) (es fs : List CreateEvent) :
    createRun v (es ++ fs) = (createRun v es).bind (fun s => createRun s fs) := by
  induction es generalizing v with
  | nil => simp [createRun]
  | cons a es ih =>
      simp only [List.cons_append, createRun]
      cases createStep v a with
      | none => rfl
      | some w => simpa using ih w

/-- What a step of a goroutine of the call number `k` does to the view. -/
theorem createStep_attempt (v v1 : mucCreateRoomView) (k : Nat) (e : AttemptEvent)
    (hs : createStep v (CreateEvent.attempt k e) = some v1) :
    ∃ a a1 ts, v.attempts[k]? = some a
      ∧ attemptStep v.autoJoin v.cancel a e = some (a1, ts)
      ∧ v1.attempts = v.attempts.set k a1
      ∧ v1.uiQueue = v.uiQueue ++ ts.map (fun t => (k, t))
      ∧ v1.autoJoin = v.autoJoin ∧ v1.cancel = v.cancel
      ∧ v1.dialogDestroyed = v.dialogDestroyed ∧ v1.dialogShowAll = v.dialogShowAll
      ∧ v1.onAutoJoinInvoked = v.onAutoJoinInvoked
      ∧ (v1.cancelChannels = v.cancelChannels
        ∨ ∃ c x rest, cancelChannelOf a e = some c ∧ v.cancelChannels[c]? = some (x :: rest)
            ∧ v1.cancelChannels = v.cancelChannels.set c rest) := by
  simp only [createStep] at hs
  cases ha : v.attempts[k]? with
  | none => simp [ha] at hs
  | some a =>
      rw [ha] at hs
      simp only at hs
      cases hst : attemptStep v.autoJoin v.cancel a e with
      | none => simp [hst] at hs
      | some r =>
          obtain ⟨a1, ts⟩ := r
          rw [hst] at hs
          simp only at hs
          cases hc : cancelChannelOf a e with
          | none =>
              rw [hc] at hs
              simp only [Option.some.injEq] at hs
              subst hs
              exact ⟨a, a1, ts, rfl, hst, rfl, rfl, rfl, rfl, rfl, rfl, rfl, Or.inl rfl⟩
          | some c =>
              rw [hc] at hs
              simp only at hs
              cases hb : v.cancelChannels[c]? with
              | none => simp [hb] at hs
              | some buf =>
                  cases buf with
                  | nil => simp [hb] at hs
                  | cons x rest =>
                      rw [hb] at hs
                      simp only [Option.some.injEq] at hs
                      subst hs
                      exact ⟨a, a1, ts, rfl, hst, rfl, rfl, rfl, rfl, rfl, rfl, rfl,
                        Or.inr ⟨c, x, rest, hc, hb, rfl⟩⟩

/-- The invariant is preserved by every step of the creation view. -/
theorem createInv_step (es : List CreateEvent) (v v1 : mucCreateRoomView) (e : CreateEvent)
    (hinv : CreateInv es v) (hs : createStep v e = some v1) : CreateInv (es ++ [e]) v1 := by
  intro k
  have hk := hinv k
  rw [attemptEvents_snoc]
  cases e with
  | createRoom ca roomID =>
      simp only [createStep, mucCreateRoomView.createRoom, Option.some.injEq] at hs
      subst hs
      simp only [List.append_nil]
      rcases Nat.lt_trichotomy k v.attempts.length with hlt | heq | hgt
      · rw [List.getElem?_append_left hlt]
        exact hk
      · subst heq
        rw [List.getElem?_concat_length]
        rw [List.getElem?_eq_none (Nat.le_refl _)] at hk
        simp only at hk ⊢
        rw [hk.1, hk.2]
        exact attemptInv_start ca roomID
      · have h1 : v.attempts.length ≤ k := Nat.le_of_lt hgt
        rw [List.getElem?_eq_none (by simp; omega)]
        rw [List.getElem?_eq_none h1] at hk
        exact hk
  | onCancel =>
      simp only [List.append_nil]
      have h2 : v1.attempts = v.attempts ∧ v1.uiQueue = v.uiQueue := by
        simp only [createStep, mucCreateRoomView.onCancel] at hs
        cases hc : v.cancel with
        | none =>
            simp [hc] at hs
            subst hs
            exact ⟨rfl, rfl⟩
        | some c =>
            cases hb : v.cancelChannels[c]? with
            | none => simp [hc, hb] at hs
            | some buf =>
                simp [hc, hb] at hs
                obtain ⟨_, rfl⟩ := hs
                exact ⟨rfl, rfl⟩
      rw [h2.1, h2.2]
      exact hk
  | updateAutoJoinValue f =>
      simp only [List.append_nil]
      have h2 : v1.attempts = v.attempts ∧ v1.uiQueue = v.uiQueue := by
        simp only [createStep, mucCreateRoomView.updateAutoJoinValue, Option.some.injEq] at hs
        subst hs
        by_cases hf : v.autoJoin = f <;> simp [hf]
      rw [h2.1, h2.2]
      exact hk
  | uiRun =>
      simp only [List.append_nil]
      simp only [createStep] at hs
      cases hq : v.uiQueue with
      | nil => simp [hq] at hs
      | cons p rest =>
          obtain ⟨j, t⟩ := p
          rw [hq] at hs
          simp only at hs
          cases ha : v.attempts[j]? with
          | none => simp [ha] at hs
          | some a =>
              rw [ha] at hs
              simp only [Option.some.injEq] at hs
              have h2 : v1.attempts = v.attempts.set j (a.runUITask t) ∧ v1.uiQueue = rest := by
                subst hs
                cases t <;> exact ⟨rfl, rfl⟩
              rw [h2.1, h2.2]
              rw [hq, tasksOf_cons] at hk
              by_cases hj : j = k
              · subst hj
                have hlt : j < v.attempts.length := by
                  by_contra hge
                  rw [List.getElem?_eq_none (Nat.le_of_not_lt hge)] at ha
                  cases ha
                rw [List.getElem?_set_self hlt]
                rw [ha] at hk
                simp only [if_true, List.singleton_append] at hk
                exact attemptInv_runUITask _ _ _ _ hk
              · rw [List.getElem?_set_ne hj]
                simp only [hj, if_false, List.nil_append] at hk
                exact hk
  | attempt j le =>
      obtain ⟨a, a1, ts, ha, hst, hat, hq, _⟩ := createStep_attempt v v1 j le hs
      rw [hat, hq, tasksOf_append_map]
      by_cases hj : j = k
      · subst hj
        have hlt : j < v.attempts.length := by
          by_contra hge
          rw [List.getElem?_eq_none (Nat.le_of_not_lt hge)] at ha
          cases ha
        rw [List.getElem?_set_self hlt]
        rw [ha] at hk
        simp only [if_true]
        exact attemptInv_step _ _ _ _ _ _ _ _ hk hst
      · rw [List.getElem?_set_ne hj]
        simp only [hj, if_false, List.append_nil]
        exact hk

/-- The invariant holds in every state reached from the new view. -/
theorem createInv_run (es : List CreateEvent) :
    ∀ s, createRun newCreateMUCRoomView es = some s → CreateInv es s := by
  induction es using List.reverseRecOn with
  | nil =>
      intro s h
      simp only [createRun, Option.some.injEq] at h
      subst h
      intro k
      simp [newCreateMUCRoomView, attemptEvents, tasksOf]
  | append_singleton es e ih =>
      intro s h
      rw [createRun_snoc] at h
      cases hr : createRun newCreateMUCRoomView es with
      | none => simp [hr] at h
      | some w =>
          rw [hr] at h
          exact createInv_step es w s e (ih w hr) h

/-- A step of a call occurs in a schedule exactly if it is among the steps of
that call. -/
theorem mem_attemptEvents (k : Nat) (es : List CreateEvent) (e : AttemptEvent) :
    e ∈ attemptEvents k es ↔ CreateEvent.attempt k e ∈ es := by
  simp only [attemptEvents, List.mem_filterMap]
  constructor
  · rintro ⟨x, hx, h⟩
    cases x with
    | attempt j le =>
        by_cases hj : j = k
        · simp [hj] at h
          subst hj h
          exact hx
        · simp [hj] at h
    | _ => simp at h
  · intro h
    exact ⟨_, h, by simp⟩

/-- The check reports among the steps of a call are steps of it. -/
theorem mem_of_mem_checkReports (h : List AttemptEvent) (e : AttemptEvent)
    (hm : e ∈ checkReports h) : e ∈ h :=
  (List.mem_filter.mp hm).1

/-- A report from `ec` among the steps of a call is among its check reports. -/
theorem mem_checkReports_ec (h : List AttemptEvent) (x : Option GoError)
    (hm : AttemptEvent.innerRecvEc x ∈ h) : AttemptEvent.innerRecvEc x ∈ checkReports h := by
  simp [checkReports, List.mem_filter, hm]

/-- A report from `rc` among the steps of a call is among its check reports. -/
theorem mem_checkReports_rc (h : List AttemptEvent) (b : Bool)
    (hm : AttemptEvent.innerRecvRc b ∈ h) : AttemptEvent.innerRecvRc b ∈ checkReports h := by
  simp [checkReports, List.mem_filter, hm]

/-- A create result among the steps of a call is among its create results. -/
theorem mem_createResults (h : List AttemptEvent) (x : Option GoError)
    (hm : AttemptEvent.creatorRecv x ∈ h) : AttemptEvent.creatorRecv x ∈ createResults h := by
  simp [createResults, List.mem_filter, hm]

/-- The invariant of a call that has been made, in a state reached from the new
view. -/
theorem attemptInv_run (es : List CreateEvent) (s : mucCreateRoomView) (k : Nat)
    (a : CreateAttempt) (h : createRun newCreateMUCRoomView es = some s)
    (ha : s.attempts[k]? = some a) :
    AttemptInv (attemptEvents k es) (tasksOf k s.uiQueue) a := by
  have hk := createInv_run es s h k
  rw [ha] at hk
  exact hk

/-- Every closure in the queue belongs to a call that has been made. -/
theorem createInv_queue_bound (es : List CreateEvent) (s : mucCreateRoomView)
    (hinv : CreateInv es s) : ∀ p ∈ s.uiQueue, p.1 < s.attempts.length := by
  intro p hp
  by_contra hge
  have hk := hinv p.1
  rw [List.getElem?_eq_none (Nat.le_of_not_lt hge)] at hk
  have hm : p.2 ∈ tasksOf p.1 s.uiQueue := by
    simp only [tasksOf, List.mem_filterMap]
    exact ⟨p, hp, by simp⟩
  rw [hk.2] at hm
  cases hm

/-- Writing a list at a position that holds a value. -/
theorem getElem?_set_of_some {α : Type} (l : List α) (k : Nat) (a b : α)
    (h : l[k]? = some a) : (l.set k b)[k]? = some b := by
  have hlt : k < l.length := by
    by_contra hge
    rw [List.getElem?_eq_none (Nat.le_of_not_lt hge)] at h
    cases h
  exact List.getElem?_set_self hlt

/-- A step of a goroutine of the call number `k` that is enabled for the call and
is not a cancel branch is enabled for the view. -/
theorem createStep_attempt_of_step (s : mucCreateRoomView) (k : Nat) (a a1 : CreateAttempt)
    (ts : List CreateUITask) (e : AttemptEvent) (ha : s.attempts[k]? = some a)
    (hst : attemptStep s.autoJoin s.cancel a e = some (a1, ts))
    (hc : cancelChannelOf a e = none) :
    createStep s (CreateEvent.attempt k e)
      = some { s with attempts := s.attempts.set k a1,
                      uiQueue := s.uiQueue ++ ts.map (fun t => (k, t)) } := by
  simp [createStep, ha, hst, hc]

/-- The view after a step of a goroutine of the call number `k` that is not a
cancel branch: the call is in its new state, and the flag, the cancel field
and the channels are as before. -/
theorem createStep_attempt_get (s : mucCreateRoomView) (k : Nat) (a a1 : CreateAttempt)
    (ts : List CreateUITask) (e : AttemptEvent) (ha : s.attempts[k]? = some a)
    (hst : attemptStep s.autoJoin s.cancel a e = some (a1, ts))
    (hc : cancelChannelOf a e = none) :
    ∃ s1, createStep s (CreateEvent.attempt k e) = some s1 ∧ s1.attempts[k]? = some a1
      ∧ s1.autoJoin = s.autoJoin ∧ s1.cancel = s.cancel
      ∧ s1.cancelChannels = s.cancelChannels
      ∧ s1.uiQueue = s.uiQueue ++ ts.map (fun t => (k, t)) :=
  ⟨_, createStep_attempt_of_step s k a a1 ts e ha hst hc, getElem?_set_of_some _ _ _ _ ha,
    rfl, rfl, rfl, rfl⟩

/-- A call of `updateAutoJoinValue` changes nothing but the flag and the trace
of `onAutoJoin.invokeAll`, and leaves the flag at the value given. -/
theorem updateAutoJoinValue_frame (s : mucCreateRoomView) (f : Bool) :
    (s.updateAutoJoinValue f).autoJoin = f
      ∧ withoutAutoJoin (s.updateAutoJoinValue f) = withoutAutoJoin s := by
  by_cases hf : s.autoJoin = f <;>
    simp [mucCreateRoomView.updateAutoJoinValue, withoutAutoJoin, hf]

/-- Calls of `updateAutoJoinValue` are always enabled; they leave the flag at
the last value given and change nothing else but the trace of
`onAutoJoin.invokeAll`. -/
theorem createRun_autoJoinToggles (fs : List Bool) :
    ∀ s : mucCreateRoomView, ∃ s1, createRun s (autoJoinToggles fs) = some s1
      ∧ s1.autoJoin = fs.getLastD s.autoJoin
      ∧ withoutAutoJoin s1 = withoutAutoJoin s := by
  induction fs with
  | nil =>
      intro s
      exact ⟨s, rfl, rfl, rfl⟩
  | cons f fs ih =>
      intro s
      obtain ⟨s1, h1, h2, h3⟩ := ih (s.updateAutoJoinValue f)
      obtain ⟨hf, hfr⟩ := updateAutoJoinValue_frame s f
      refine ⟨s1, ?_, ?_, ?_⟩
      · simpa [autoJoinToggles, createRun, createStep] using h1
      · rw [h2, hf]
        cases fs <;> rfl
      · rw [h3, hfr]

/-- Two views that differ at most in the flag and in the trace of
`onAutoJoin.invokeAll` have the same calls and the same queue. -/
theorem awaitsResult_of_withoutAutoJoin (s s1 : mucCreateRoomView) (k : Nat)
    (a : CreateAttempt) (h : withoutAutoJoin s1 = withoutAutoJoin s)
    (hw : AwaitsResult s k a) : AwaitsResult s1 k a ∧ s1.uiQueue = s.uiQueue := by
  have h1 : s1.attempts = s.attempts := by
    have h0 := congrArg mucCreateRoomView.attempts h
    exact h0
  have h2 : s1.uiQueue = s.uiQueue := by
    have h0 := congrArg mucCreateRoomView.uiQueue h
    exact h0
  unfold AwaitsResult at hw ⊢
  rw [h1, h2]
  exact ⟨hw, rfl⟩

/-- The UI thread can run every closure of the queue, oldest first. This empties
the queue, gives each call the closures it handed over, in order, and changes
nothing else but the traces of `v.dialog.Destroy` and `v.dialog.ShowAll`. -/
theorem createRun_uiRun_all : ∀ (q : List (Nat × CreateUITask)) (s : mucCreateRoomView),
    s.uiQueue = q → (∀ p ∈ q, p.1 < s.attempts.length) →
    ∃ s1, createRun s (List.replicate q.length CreateEvent.uiRun) = some s1
      ∧ s1.uiQueue = [] ∧ s1.autoJoin = s.autoJoin ∧ s1.cancel = s.cancel
      ∧ s1.cancelChannels = s.cancelChannels
      ∧ s1.attempts.length = s.attempts.length
      ∧ ∀ k a, s.attempts[k]? = some a →
          s1.attempts[k]? = some ((tasksOf k q).foldl CreateAttempt.runUITask a) := by
  intro q
  induction q with
  | nil =>
      intro s hq _
      exact ⟨s, rfl, hq, rfl, rfl, rfl, rfl, fun k a ha => by simpa [tasksOf] using ha⟩
  | cons p rest ih =>
      intro s hq hb
      obtain ⟨j, t⟩ := p
      have hj : j < s.attempts.length := hb (j, t) (by simp)
      have haj : s.attempts[j]? = some (s.attempts[j]) := List.getElem?_eq_getElem hj
      have hstep : createStep s CreateEvent.uiRun
          = some ({ s with uiQueue := rest }.runUITask j (s.attempts[j]) t) := by
        simp [createStep, hq, haj]
      have hfr : ({ s with uiQueue := rest }.runUITask j (s.attempts[j]) t).uiQueue = rest
          ∧ ({ s with uiQueue := rest }.runUITask j (s.attempts[j]) t).autoJoin = s.autoJoin
          ∧ ({ s with uiQueue := rest }.runUITask j (s.attempts[j]) t).cancel = s.cancel
          ∧ ({ s with uiQueue := rest }.runUITask j (s.attempts[j]) t).cancelChannels
              = s.cancelChannels
          ∧ ({ s with uiQueue := rest }.runUITask j (s.attempts[j]) t).attempts
              = s.attempts.set j ((s.attempts[j]).runUITask t) := by
        cases t <;> exact ⟨rfl, rfl, rfl, rfl, rfl⟩
      obtain ⟨h1, h2, h3, h4, h5⟩ := hfr
      obtain ⟨s1, hr, hq1, haj1, hc1, hcc1, hl1, hk1⟩ :=
        ih ({ s with uiQueue := rest }.runUITask j (s.attempts[j]) t) h1
          (by
            intro p hp
            rw [h5, List.length_set]
            exact hb p (List.mem_cons_of_mem _ hp))
      refine ⟨s1, ?_, hq1, by rw [haj1, h2], by rw [hc1, h3], by rw [hcc1, h4], ?_, ?_⟩
      · simp only [List.length_cons, List.replicate_succ, createRun, hstep, Option.some_bind]
        exact hr
      · rw [hl1, h5, List.length_set]
      · intro k a ha
        rw [tasksOf_cons]
        by_cases hjk : j = k
        · subst hjk
          have ha2 : s.attempts[j] = a := by
            rw [haj] at ha
            exact Option.some.inj ha
          simp only [if_true, List.singleton_append, List.foldl_cons]
          apply hk1
          rw [h5, ha2]
          exact getElem?_set_of_some _ _ _ _ ha
        · simp only [hjk, if_false, List.nil_append]
          apply hk1
          rw [h5, List.getElem?_set_ne hjk]
          exact ha

/-- A call that awaits the result of create, or has received it and has not yet
run the callback, in a state reached from the new view: the existence check
has reported the room available, and nothing has come out of the call yet. -/
theorem awaitsResult_run (es : List CreateEvent) (s : mucCreateRoomView) (k : Nat)
    (a : CreateAttempt) (h : createRun newCreateMUCRoomView es = some s)
    (ha : s.attempts[k]? = some a)
    (hw : a.creator = CreatorPC.waiting ∨ ∃ x, a.creator = CreatorPC.received x) :
    AwaitsResult s k a
      ∧ CreateEvent.attempt k (AttemptEvent.innerRecvRc false) ∈ es := by
  have hinv := attemptInv_run es s k a h ha
  have hb := createInv_queue_bound es s (createInv_run es s h)
  unfold AttemptInv at hinv
  rcases hinv with ⟨⟨h0, _⟩, _⟩ | ⟨_, _, _, _, ⟨h0, _⟩ | ⟨h1, _, h3⟩⟩
  · rcases hw with hw | ⟨x, hw⟩ <;> rw [hw] at h0 <;> cases h0
  · rcases hw with hw | ⟨x, hw⟩ <;> rw [hw] at h0 <;> cases h0
  · have hm : CreateEvent.attempt k (AttemptEvent.innerRecvRc false) ∈ es :=
      (mem_attemptEvents k es _).mp (mem_of_mem_checkReports _ _ (by simp [h1]))
    rcases h3 with ⟨_, he, hq, hs, hj, _⟩ | ⟨x, _, he, hq, hs, hj, _⟩ | ⟨h0, _⟩ | ⟨h0, _⟩
    · exact ⟨⟨ha, he, hs, hj, hq, hb⟩, hm⟩
    · exact ⟨⟨ha, he, hs, hj, hq, hb⟩, hm⟩
    · rcases hw with hw | ⟨x, hw⟩ <;> rw [hw] at h0 <;> cases h0
    · rcases hw with hw | ⟨x, hw⟩ <;> rw [hw] at h0 <;> cases h0

/-- The receive `err := <-result` of a call that awaits the result is enabled and
changes only the program counter of the goroutine of `account.createRoom`. -/
theorem awaitsResult_recv (s : mucCreateRoomView) (k : Nat) (a : CreateAttempt)
    (x : Option GoError) (hw : AwaitsResult s k a) (hc : a.creator = CreatorPC.waiting) :
    ∃ s1, createStep s (CreateEvent.attempt k (AttemptEvent.creatorRecv x)) = some s1
      ∧ AwaitsResult s1 k { a with creator := CreatorPC.received x }
      ∧ s1.autoJoin = s.autoJoin ∧ s1.uiQueue = s.uiQueue := by
  obtain ⟨ha, he, hs, hj, hq, hb⟩ := hw
  have hstep := createStep_attempt_of_step s k a { a with creator := CreatorPC.received x } []
    (AttemptEvent.creatorRecv x) ha (by simp [attemptStep, hc]) rfl
  refine ⟨_, hstep, ⟨getElem?_set_of_some _ _ _ _ ha, he, hs, hj, by simpa using hq, ?_⟩,
    rfl, by simp⟩
  intro p hp
  simp only [List.map_nil, List.append_nil, List.length_set] at hp ⊢
  exact hb p hp

/-- The success path of a call that has received a nil result: the goroutine of
`account.createRoom` calls `onSuccess`, which reads the flag in state `s`;
whatever calls `hs` of `updateAutoJoinValue` follow, the UI thread can run the
whole queue, and the call then has run exactly the closure chosen by the flag
as read. -/
theorem awaitsResult_success (s : mucCreateRoomView) (k : Nat) (a : CreateAttempt)
    (hs : List Bool) (hw : AwaitsResult s k a) (hc : a.creator = CreatorPC.received none) :
    ∃ s1 s2 s3, createStep s (CreateEvent.attempt k AttemptEvent.creatorRun) = some s1
      ∧ createRun s1 (autoJoinToggles hs) = some s2
      ∧ createRun s2 (List.replicate (s.uiQueue.length + 1) CreateEvent.uiRun) = some s3
      ∧ s2.autoJoin = hs.getLastD s.autoJoin
      ∧ s3.uiQueue = []
      ∧ s3.attempts[k]?
          = some (CreateAttempt.runUITask { a with creator := CreatorPC.finished }
              (successTask a s.autoJoin)) := by
  obtain ⟨ha, he, hsv, hj, hq, hb⟩ := hw
  have hst : attemptStep s.autoJoin s.cancel a AttemptEvent.creatorRun
      = some ({ a with creator := CreatorPC.finished }, [successTask a s.autoJoin]) := by
    cases haj : s.autoJoin <;>
      simp [attemptStep, hc, CreateAttempt.accountCreateRoomOnResult,
        CreateAttempt.onCreateRoomFinished, successTask]
  have hstep := createStep_attempt_of_step s k a _ _ AttemptEvent.creatorRun ha hst rfl
  obtain ⟨s2, h2, haj2, hfr⟩ := createRun_autoJoinToggles hs
    { s with attempts := s.attempts.set k { a with creator := CreatorPC.finished },
             uiQueue := s.uiQueue
               ++ [successTask a s.autoJoin].map (fun t => (k, t)) }
  have hat : s2.attempts = s.attempts.set k { a with creator := CreatorPC.finished } := by
    have h0 := congrArg mucCreateRoomView.attempts hfr
    exact h0
  have hqu : s2.uiQueue = s.uiQueue ++ [(k, successTask a s.autoJoin)] := by
    have h0 := congrArg mucCreateRoomView.uiQueue hfr
    exact h0
  have hklt : k < s.attempts.length := by
    by_contra hge
    rw [List.getElem?_eq_none (Nat.le_of_not_lt hge)] at ha
    cases ha
  obtain ⟨s3, h3, hq3, _, _, _, _, hk3⟩ :=
    createRun_uiRun_all (s.uiQueue ++ [(k, successTask a s.autoJoin)]) s2 hqu
      (by
        intro p hp
        rw [hat, List.length_set]
        rcases List.mem_append.mp hp with hp | hp
        · exact hb p hp
        · simp only [List.mem_singleton] at hp
          subst hp
          exact hklt)
  refine ⟨_, s2, s3, hstep, h2, ?_, haj2, hq3, ?_⟩
  · simpa using h3
  · have h4 := hk3 k { a with creator := CreatorPC.finished }
      (by rw [hat]; exact getElem?_set_of_some _ _ _ _ ha)
    rw [h4]
    have h5 : tasksOf k (s.uiQueue ++ [(k, successTask a s.autoJoin)])
        = [successTask a s.autoJoin] := by
      have h6 := tasksOf_append_map k k s.uiQueue [successTask a s.autoJoin]
      simp only [List.map_cons, List.map_nil, if_true] at h6
      rw [h6, hq]
      rfl
    rw [h5]
    rfl

/-- The failure path of a call that has received a non-nil result: the goroutine
of `account.createRoom` calls `onError`, which sends `errCreateRoomFailed` on
the channel `errors`; no closure is queued. -/
theorem awaitsResult_failure (s : mucCreateRoomView) (k : Nat) (a : CreateAttempt)
    (x : GoError) (hw : AwaitsResult s k a) (hc : a.creator = CreatorPC.received (some x)) :
    ∃ s1 a1, createStep s (CreateEvent.attempt k AttemptEvent.creatorRun) = some s1
      ∧ s1.attempts[k]? = some a1 ∧ a1.errors = [GoError.errCreateRoomFailed]
      ∧ a1.successViews = [] ∧ a1.joinRooms = [] ∧ tasksOf k s1.uiQueue = [] := by
  obtain ⟨ha, he, hsv, hj, hq, hb⟩ := hw
  have hst : attemptStep s.autoJoin s.cancel a AttemptEvent.creatorRun
      = some ({ a with creator := CreatorPC.finished,
                       errors := a.errors ++ [GoError.errCreateRoomFailed] }, []) := by
    simp [attemptStep, hc, CreateAttempt.accountCreateRoomOnResult]
  have hstep := createStep_attempt_of_step s k a _ _ AttemptEvent.creatorRun ha hst rfl
  refine ⟨_, _, hstep, getElem?_set_of_some _ _ _ _ ha, by simp [he], hsv, hj, ?_⟩
  simpa using hq

/-- What the closure chosen by the flag records for the call: the join of the
same account and room when the flag is set, the success view otherwise. -/
theorem runUITask_successTask (a : CreateAttempt) (f : Bool) (he : a.errors = [])
    (hs : a.successViews = []) (hj : a.joinRooms = []) :
    (CreateAttempt.runUITask { a with creator := CreatorPC.finished }
        (successTask a f)).errors = []
      ∧ (f = true →
          (CreateAttempt.runUITask { a with creator := CreatorPC.finished }
              (successTask a f)).joinRooms = [(a.ca, a.roomID)]
            ∧ (CreateAttempt.runUITask { a with creator := CreatorPC.finished }
                (successTask a f)).successViews = [])
      ∧ (f = false →
          (CreateAttempt.runUITask { a with creator := CreatorPC.finished }
              (successTask a f)).successViews = [(a.ca, a.roomID)]
            ∧ (CreateAttempt.runUITask { a with creator := CreatorPC.finished }
                (successTask a f)).joinRooms = []) := by
  cases f <;> simp [successTask, CreateAttempt.runUITask, he, hs, hj]

/-! ## The existence check gates the create operation -/

/-- Once the goroutine of `checkIfRoomExists` of a call holds the error `e` of the
check and nothing has been reported or created yet, the goroutine of
`createRoom`, unless it has finished, forwards `e` to the channel `errors` by
its own steps. -/
theorem createRun_forwards_error (s : mucCreateRoomView) (k : Nat) (a : CreateAttempt)
    (e : GoError) (ha : s.attempts[k]? = some a) (hi : a.inner = InnerPC.sendingErrors e)
    (he : a.errors = []) (hc : a.createRoomCalls = [])
    (ho : a.outer = OuterPC.checked ∨ ∃ c, a.outer = OuterPC.selecting c) :
    ∃ fs ∈ [[], [CreateEvent.attempt k AttemptEvent.outerRecvEr],
            [CreateEvent.attempt k AttemptEvent.outerSelect,
             CreateEvent.attempt k AttemptEvent.outerRecvEr]],
      ∃ s1 a1, createRun s fs = some s1 ∧ s1.attempts[k]? = some a1 ∧ a1.errors = [e]
        ∧ a1.createRoomCalls = [] := by
  rcases ho with ho | ⟨cc, ho⟩
  · refine ⟨[CreateEvent.attempt k AttemptEvent.outerSelect,
      CreateEvent.attempt k AttemptEvent.outerRecvEr], by simp, ?_⟩
    obtain ⟨s1, h1, ha1, _⟩ := createStep_attempt_get s k a
      { a with outer := OuterPC.selecting s.cancel } [] AttemptEvent.outerSelect ha
      (by simp [attemptStep, ho]) rfl
    obtain ⟨s2, h2, ha2, _⟩ := createStep_attempt_get s1 k
      { a with outer := OuterPC.selecting s.cancel }
      { a with inner := InnerPC.finished, errors := a.errors ++ [e],
               outer := OuterPC.finished } [] AttemptEvent.outerRecvEr ha1
      (by simp [attemptStep, hi]) rfl
    refine ⟨s2, _, ?_, ha2, by simp [he], hc⟩
    simp only [createRun, h1, Option.some_bind, h2]
  · refine ⟨[CreateEvent.attempt k AttemptEvent.outerRecvEr], by simp, ?_⟩
    obtain ⟨s1, h1, ha1, _⟩ := createStep_attempt_get s k a
      { a with inner := InnerPC.finished, errors := a.errors ++ [e],
               outer := OuterPC.finished } [] AttemptEvent.outerRecvEr ha
      (by simp [attemptStep, hi, ho]) rfl
    refine ⟨s1, _, ?_, ha1, by simp [he], hc⟩
    simp only [createRun, h1, Option.some_bind]

/-- The state of a call once the check has reported a failure `r` that maps to
the error `e`: create has not been called, and either the error is still held
by the goroutine of `checkIfRoomExists` or it has been reported. -/
theorem attemptInv_check_failed (h : List AttemptEvent) (q : List CreateUITask)
    (a : CreateAttempt) (e : GoError) (r : AttemptEvent) (hinv : AttemptInv h q a)
    (hr : r ∈ checkReports h)
    (hre : (r = AttemptEvent.innerRecvRc true ∧ e = GoError.errCreateRoomAlreadyExists)
      ∨ ((∃ x, r = AttemptEvent.innerRecvEc x)
          ∧ e = GoError.errCreateRoomCheckIfExistsFails)) :
    a.createRoomCalls = []
      ∧ ((a.errors = [] ∧ a.inner = InnerPC.sendingErrors e ∧ OuterRunning a
            ∧ (a.outer = OuterPC.finished ↔ AttemptEvent.outerRecvCancel ∈ h))
        ∨ a.errors = [e]) := by
  unfold AttemptInv at hinv
  rcases hinv with ⟨⟨_, h2, h3, _⟩, _, hoc, _, h8⟩
    | ⟨_, _, _, _, ⟨_, h2, _, _, _, _, h8⟩ | ⟨h1, _⟩⟩
  · refine ⟨h2, Or.inl ⟨h3, ?_⟩⟩
    rcases h8 with ⟨_, _, h⟩ | ⟨_, _, h⟩ | ⟨hi, ho, h⟩ | ⟨hi, ho, x, h⟩ | ⟨_, _, h⟩
    · simp [h] at hr
    · simp [h] at hr
    · rw [h] at hr
      rcases hre with ⟨rfl, rfl⟩ | ⟨⟨y, rfl⟩, rfl⟩
      · exact ⟨hi, ho, hoc⟩
      · simp at hr
    · rw [h] at hr
      rcases hre with ⟨rfl, rfl⟩ | ⟨⟨y, rfl⟩, rfl⟩
      · simp at hr
      · exact ⟨hi, ho, hoc⟩
    · rw [h] at hr
      rcases hre with ⟨rfl, rfl⟩ | ⟨⟨y, rfl⟩, rfl⟩ <;> simp at hr
  · refine ⟨h2, Or.inr ?_⟩
    rcases h8 with ⟨he, h⟩ | ⟨he, x, h⟩
    · rw [h] at hr
      rcases hre with ⟨rfl, rfl⟩ | ⟨⟨y, rfl⟩, rfl⟩
      · exact he
      · simp at hr
    · rw [h] at hr
      rcases hre with ⟨rfl, rfl⟩ | ⟨⟨y, rfl⟩, rfl⟩
      · simp at hr
      · exact he
  · rw [h1] at hr
    rcases hre with ⟨rfl, rfl⟩ | ⟨⟨y, rfl⟩, rfl⟩ <;> simp at hr

/-- The conclusion of C9 for a failure report of the check of one call. -/
theorem createRun_check_failed (es : List CreateEvent) (s : mucCreateRoomView) (k : Nat)
    (a : CreateAttempt) (e : GoError) (r : AttemptEvent)
    (h : createRun newCreateMUCRoomView es = some s) (ha : s.attempts[k]? = some a)
    (hr : CreateEvent.attempt k r ∈ es)
    (hre : (r = AttemptEvent.innerRecvRc true ∧ e = GoError.errCreateRoomAlreadyExists)
      ∨ ((∃ x, r = AttemptEvent.innerRecvEc x)
          ∧ e = GoError.errCreateRoomCheckIfExistsFails)) :
    a.createRoomCalls = [] ∧ (a.errors = [] ∨ a.errors = [e])
      ∧ (CreateEvent.attempt k AttemptEvent.outerRecvCancel ∉ es →
          ∃ fs ∈ [[], [CreateEvent.attempt k AttemptEvent.outerRecvEr],
                  [CreateEvent.attempt k AttemptEvent.outerSelect,
                   CreateEvent.attempt k AttemptEvent.outerRecvEr]],
            ∃ s1 a1, createRun s fs = some s1 ∧ s1.attempts[k]? = some a1 ∧ a1.errors = [e]
              ∧ a1.createRoomCalls = []) := by
  have hr2 : r ∈ checkReports (attemptEvents k es) := by
    have h0 := (mem_attemptEvents k es r).mpr hr
    rcases hre with ⟨rfl, _⟩ | ⟨⟨x, rfl⟩, _⟩
    · exact mem_checkReports_rc _ _ h0
    · exact mem_checkReports_ec _ _ h0
  obtain ⟨hc, hcases⟩ :=
    attemptInv_check_failed _ _ a e r (attemptInv_run es s k a h ha) hr2 hre
  refine ⟨hc, ?_, ?_⟩
  · rcases hcases with ⟨he, _⟩ | he
    · exact Or.inl he
    · exact Or.inr he
  · intro hnc
    rcases hcases with ⟨he, hi, ho, hfin⟩ | he
    · rcases ho with ho | ho | ho
      · exact createRun_forwards_error s k a e ha hi he hc (Or.inl ho)
      · exact createRun_forwards_error s k a e ha hi he hc (Or.inr ho)
      · exact absurd ((mem_attemptEvents k es _).mp (hfin.mp ho)) hnc
    · exact ⟨[], by simp, s, a, rfl, ha, he, hc⟩

/-- C9: for every schedule of the creation view started on a new view, with any
number of calls of `createRoom` for any accounts and room identifiers, and
for every call `a` (number `k`) made so far: the transport's create operation
has been called for it only if its existence check has reported that the room
does not exist. If its check has reported that the room exists, create is not
called for it, nothing but `errCreateRoomAlreadyExists` is reported on its
error channel and, unless its goroutine has received a cancellation signal,
the call reports it by its own steps. If its check has reported a transport
error `x`, whatever it is, the same holds with
`errCreateRoomCheckIfExistsFails`. -/
theorem createRoom_calls_create_only_when_available (es : List CreateEvent)
    (s : mucCreateRoomView) (k : Nat) (a : CreateAttempt)
    (h : createRun newCreateMUCRoomView es = some s) (ha : s.attempts[k]? = some a) :
    (a.createRoomCalls ≠ [] →
        CreateEvent.attempt k (AttemptEvent.innerRecvRc false) ∈ es
          ∧ a.createRoomCalls = [a.roomID])
      ∧ (CreateEvent.attempt k (AttemptEvent.innerRecvRc true) ∈ es →
          a.createRoomCalls = []
            ∧ (a.errors = [] ∨ a.errors = [GoError.errCreateRoomAlreadyExists])
            ∧ (CreateEvent.attempt k AttemptEvent.outerRecvCancel ∉ es →
                ∃ fs ∈ [[], [CreateEvent.attempt k AttemptEvent.outerRecvEr],
                        [CreateEvent.attempt k AttemptEvent.outerSelect,
                         CreateEvent.attempt k AttemptEvent.outerRecvEr]],
                  ∃ s1 a1, createRun s fs = some s1 ∧ s1.attempts[k]? = some a1
                    ∧ a1.errors = [GoError.errCreateRoomAlreadyExists]
                    ∧ a1.createRoomCalls = []))
      ∧ (∀ x, CreateEvent.attempt k (AttemptEvent.innerRecvEc x) ∈ es →
          a.createRoomCalls = []
            ∧ (a.errors = [] ∨ a.errors = [GoError.errCreateRoomCheckIfExistsFails])
            ∧ (CreateEvent.attempt k AttemptEvent.outerRecvCancel ∉ es →
                ∃ fs ∈ [[], [CreateEvent.attempt k AttemptEvent.outerRecvEr],
                        [CreateEvent.attempt k AttemptEvent.outerSelect,
                         CreateEvent.attempt k AttemptEvent.outerRecvEr]],
                  ∃ s1 a1, createRun s fs = some s1 ∧ s1.attempts[k]? = some a1
                    ∧ a1.errors = [GoError.errCreateRoomCheckIfExistsFails]
                    ∧ a1.createRoomCalls = [])) := by
  refine ⟨?_, ?_, ?_⟩
  · intro hne
    have hinv := attemptInv_run es s k a h ha
    unfold AttemptInv at hinv
    rcases hinv with ⟨⟨_, h2, _⟩, _⟩ | ⟨_, _, _, _, ⟨_, h2, _⟩ | ⟨h1, h2, _⟩⟩
    · exact absurd h2 hne
    · exact absurd h2 hne
    · exact ⟨(mem_attemptEvents k es _).mp (mem_of_mem_checkReports _ _ (by simp [h1])), h2⟩
  · intro hm
    exact createRun_check_failed es s k a _ _ h ha hm (Or.inl ⟨rfl, rfl⟩)
  · intro x hm
    exact createRun_check_failed es s k a _ _ h ha hm (Or.inr ⟨⟨x, rfl⟩, rfl⟩)

/-- Witness for C9: `createRoom` is called twice on the same view, and the check
of the second call reports that `room2` exists. -/
theorem createRoom_calls_create_only_when_available_witness :
    createRun newCreateMUCRoomView scheduleSecondCallTaken = some stateSecondCallTaken
      ∧ stateSecondCallTaken.attempts[1]? = some (attemptRoomTaken exampleRoom2)
      ∧ (attemptRoomTaken exampleRoom2).createRoomCalls = []
      ∧ (attemptRoomTaken exampleRoom2).errors = [GoError.errCreateRoomAlreadyExists] :=
  ⟨rfl, rfl,
   ((createRoom_calls_create_only_when_available scheduleSecondCallTaken
      stateSecondCallTaken 1 (attemptRoomTaken exampleRoom2) rfl rfl).2.1 (by decide)).1,
   rfl⟩

/-! ## The two branches of a successful creation -/

/-- The state of a call once the goroutine of `account.createRoom` has received
the result `x`: either the callback has not been called yet, or (for a non-nil
result) `errCreateRoomFailed` has been reported and nothing else has come out,
or (for a nil result) exactly one closure has been queued or run. -/
theorem attemptInv_create_result (h : List AttemptEvent) (q : List CreateUITask)
    (a : CreateAttempt) (x : Option GoError) (hinv : AttemptInv h q a)
    (hr : AttemptEvent.creatorRecv x ∈ createResults h) :
    checkReports h = [AttemptEvent.innerRecvRc false] ∧ a.createRoomCalls = [a.roomID]
      ∧ ((a.creator = CreatorPC.received x ∧ a.errors = [] ∧ q = []
            ∧ a.successViews = [] ∧ a.joinRooms = [])
        ∨ (x ≠ none ∧ a.creator = CreatorPC.finished
            ∧ a.errors = [GoError.errCreateRoomFailed] ∧ q = []
            ∧ a.successViews = [] ∧ a.joinRooms = [])
        ∨ (x = none ∧ a.creator = CreatorPC.finished ∧ a.errors = []
            ∧ ((q = [CreateUITask.joinRoom a.ca a.roomID] ∧ a.successViews = []
                  ∧ a.joinRooms = [])
              ∨ (q = [CreateUITask.showSuccessView a.ca a.roomID]
                  ∧ a.successViews = [] ∧ a.joinRooms = [])
              ∨ (q = [] ∧ a.successViews = [] ∧ a.joinRooms = [(a.ca, a.roomID)])
              ∨ (q = [] ∧ a.successViews = [(a.ca, a.roomID)]
                  ∧ a.joinRooms = [])))) := by
  unfold AttemptInv at hinv
  rcases hinv with ⟨_, h7, _⟩ | ⟨_, _, _, _, ⟨_, _, _, _, _, h7, _⟩ | ⟨h1, h2, h3⟩⟩
  · simp [h7] at hr
  · simp [h7] at hr
  · refine ⟨h1, h2, ?_⟩
    rcases h3 with ⟨_, _, _, _, _, h7⟩ | ⟨y, hc, he, hq, hs, hj, h7⟩
      | ⟨hc, he, hq, hs, hj, y, h7⟩ | ⟨hc, he, h7, hb⟩
    · simp [h7] at hr
    · rw [h7] at hr
      simp only [List.mem_singleton, AttemptEvent.creatorRecv.injEq] at hr
      subst hr
      exact Or.inl ⟨hc, he, hq, hs, hj⟩
    · rw [h7] at hr
      simp only [List.mem_singleton, AttemptEvent.creatorRecv.injEq] at hr
      subst hr
      exact Or.inr (Or.inl ⟨by simp, hc, he, hq, hs, hj⟩)
    · rw [h7] at hr
      simp only [List.mem_singleton, AttemptEvent.creatorRecv.injEq] at hr
      subst hr
      exact Or.inr (Or.inr ⟨rfl, hc, he, hb⟩)

/-- C10: for every schedule of the creation view started on a new view, with any
number of calls of `createRoom`, and for every call `a` (number `k`) made so
far. (1) Once the transport's create has succeeded for the call (which happens
only after its check has reported the room available), no error is reported
and, unless the success callback has not run yet, exactly one of the two
branches is taken: either the join of the same account and room is queued for
the UI thread or started, and the success view is neither queued nor shown, or
the success view for the same account and room is queued or shown, and the
join is neither queued nor started. (2) Once create has failed, neither branch
is taken, and `errCreateRoomFailed` is reported unless the error callback has
not run yet. (3) While the result of create is awaited, a success followed by
the success callback and by the UI thread running its queue starts the join
and shows no success view when `autoJoin` is set, and shows the success view
and starts no join when it is not set; a failure followed by the error
callback reports `errCreateRoomFailed` and takes neither branch. (4) Once a
result has been received and the callback has not run yet, the callback is
enabled and has the same effect. -/
theorem createRoom_success_takes_one_branch (es : List CreateEvent) (s : mucCreateRoomView)
    (k : Nat) (a : CreateAttempt) (h : createRun newCreateMUCRoomView es = some s)
    (ha : s.attempts[k]? = some a) :
    (CreateEvent.attempt k (AttemptEvent.creatorRecv none) ∈ es →
        CreateEvent.attempt k (AttemptEvent.innerRecvRc false) ∈ es ∧ a.errors = []
          ∧ ((a.creator = CreatorPC.received none ∧ tasksOf k s.uiQueue = []
                ∧ a.joinRooms = [] ∧ a.successViews = [])
            ∨ ((tasksOf k s.uiQueue = [CreateUITask.joinRoom a.ca a.roomID]
                    ∧ a.joinRooms = [])
                ∨ (tasksOf k s.uiQueue = [] ∧ a.joinRooms = [(a.ca, a.roomID)]))
              ∧ a.successViews = []
            ∨ ((tasksOf k s.uiQueue = [CreateUITask.showSuccessView a.ca a.roomID]
                    ∧ a.successViews = [])
                ∨ (tasksOf k s.uiQueue = [] ∧ a.successViews = [(a.ca, a.roomID)]))
              ∧ a.joinRooms = []))
      ∧ (∀ x, CreateEvent.attempt k (AttemptEvent.creatorRecv (some x)) ∈ es →
          (a.errors = [GoError.errCreateRoomFailed]
              ∨ (a.creator = CreatorPC.received (some x) ∧ a.errors = []))
            ∧ tasksOf k s.uiQueue = [] ∧ a.successViews = [] ∧ a.joinRooms = [])
      ∧ (a.creator = CreatorPC.waiting →
          CreateEvent.attempt k (AttemptEvent.innerRecvRc false) ∈ es
            ∧ (∃ s1 s2 s3 a3,
                createStep s (CreateEvent.attempt k (AttemptEvent.creatorRecv none)) = some s1
                ∧ createStep s1 (CreateEvent.attempt k AttemptEvent.creatorRun) = some s2
                ∧ createRun s2 (List.replicate (s.uiQueue.length + 1) CreateEvent.uiRun)
                    = some s3
                ∧ s3.attempts[k]? = some a3 ∧ a3.errors = [] ∧ s3.uiQueue = []
                ∧ (s.autoJoin = true →
                    a3.joinRooms = [(a.ca, a.roomID)] ∧ a3.successViews = [])
                ∧ (s.autoJoin = false →
                    a3.successViews = [(a.ca, a.roomID)] ∧ a3.joinRooms = []))
            ∧ (∀ x, ∃ s1 s2 a2,
                createStep s (CreateEvent.attempt k (AttemptEvent.creatorRecv (some x)))
                    = some s1
                ∧ createStep s1 (CreateEvent.attempt k AttemptEvent.creatorRun) = some s2
                ∧ s2.attempts[k]? = some a2 ∧ a2.errors = [GoError.errCreateRoomFailed]
                ∧ tasksOf k s2.uiQueue = [] ∧ a2.successViews = [] ∧ a2.joinRooms = []))
      ∧ (a.creator = CreatorPC.received none →
          ∃ s2 s3 a3,
            createStep s (CreateEvent.attempt k AttemptEvent.creatorRun) = some s2
            ∧ createRun s2 (List.replicate (s.uiQueue.length + 1) CreateEvent.uiRun)
                = some s3
            ∧ s3.attempts[k]? = some a3 ∧ a3.errors = [] ∧ s3.uiQueue = []
            ∧ (s.autoJoin = true → a3.joinRooms = [(a.ca, a.roomID)] ∧ a3.successViews = [])
            ∧ (s.autoJoin = false →
                a3.successViews = [(a.ca, a.roomID)] ∧ a3.joinRooms = []))
      ∧ (∀ x, a.creator = CreatorPC.received (some x) →
          ∃ s2 a2, createStep s (CreateEvent.attempt k AttemptEvent.creatorRun) = some s2
            ∧ s2.attempts[k]? = some a2 ∧ a2.errors = [GoError.errCreateRoomFailed]
            ∧ tasksOf k s2.uiQueue = [] ∧ a2.successViews = [] ∧ a2.joinRooms = []) := by
  have hinv := attemptInv_run es s k a h ha
  refine ⟨?_, ?_, ?_, ?_, ?_⟩
  · intro hm
    obtain ⟨h1, _, h3⟩ := attemptInv_create_result _ _ a none hinv
      (mem_createResults _ none ((mem_attemptEvents k es _).mpr hm))
    refine ⟨(mem_attemptEvents k es _).mp (mem_of_mem_checkReports _ _ (by simp [h1])), ?_⟩
    rcases h3 with ⟨hc, he, hq, hs, hj⟩ | ⟨hx, _⟩ | ⟨_, _, he, hb⟩
    · exact ⟨he, Or.inl ⟨hc, hq, hj, hs⟩⟩
    · exact absurd rfl hx
    · refine ⟨he, ?_⟩
      rcases hb with ⟨hq, hs, hj⟩ | ⟨hq, hs, hj⟩ | ⟨hq, hs, hj⟩ | ⟨hq, hs, hj⟩
      · exact Or.inr (Or.inl ⟨Or.inl ⟨hq, hj⟩, hs⟩)
      · exact Or.inr (Or.inr ⟨Or.inl ⟨hq, hs⟩, hj⟩)
      · exact Or.inr (Or.inl ⟨Or.inr ⟨hq, hj⟩, hs⟩)
      · exact Or.inr (Or.inr ⟨Or.inr ⟨hq, hs⟩, hj⟩)
  · intro x hm
    obtain ⟨_, _, h3⟩ := attemptInv_create_result _ _ a (some x) hinv
      (mem_createResults _ (some x) ((mem_attemptEvents k es _).mpr hm))
    rcases h3 with ⟨hc, he, hq, hs, hj⟩ | ⟨_, _, he, hq, hs, hj⟩ | ⟨hx, _⟩
    · exact ⟨Or.inr ⟨hc, he⟩, hq, hs, hj⟩
    · exact ⟨Or.inl he, hq, hs, hj⟩
    · cases hx
  · intro hw
    obtain ⟨haw, hm⟩ := awaitsResult_run es s k a h ha (Or.inl hw)
    refine ⟨hm, ?_, ?_⟩
    · obtain ⟨s1, h1, haw1, haj1, hq1⟩ := awaitsResult_recv s k a none haw hw
      obtain ⟨s2, s2b, s3, h2, h2b, h3, _, hq3, ha3⟩ := awaitsResult_success s1 k _ [] haw1 rfl
      simp only [autoJoinToggles, List.map_nil, createRun, Option.some.injEq] at h2b
      subst h2b
      rw [hq1] at h3
      obtain ⟨_, he, hs, hj, _⟩ := haw
      obtain ⟨r1, r2, r3⟩ := runUITask_successTask a s.autoJoin he hs hj
      rw [haj1] at ha3
      exact ⟨s1, s2, s3, _, h1, h2, h3, ha3, r1, hq3, r2, r3⟩
    · intro x
      obtain ⟨s1, h1, haw1, _, _⟩ := awaitsResult_recv s k a (some x) haw hw
      obtain ⟨s2, a2, h2, ha2, he2, hs2, hj2, hq2⟩ := awaitsResult_failure s1 k _ x haw1 rfl
      exact ⟨s1, s2, a2, h1, h2, ha2, he2, hq2, hs2, hj2⟩
  · intro hw
    obtain ⟨haw, _⟩ := awaitsResult_run es s k a h ha (Or.inr ⟨none, hw⟩)
    obtain ⟨s2, s2b, s3, h2, h2b, h3, _, hq3, ha3⟩ := awaitsResult_success s k a [] haw hw
    simp only [autoJoinToggles, List.map_nil, createRun, Option.some.injEq] at h2b
    subst h2b
    obtain ⟨_, he, hs, hj, _⟩ := haw
    obtain ⟨r1, r2, r3⟩ := runUITask_successTask a s.autoJoin he hs hj
    exact ⟨s2, s3, _, h2, h3, ha3, r1, hq3, r2, r3⟩
  · intro x hw
    obtain ⟨haw, _⟩ := awaitsResult_run es s k a h ha (Or.inr ⟨some x, hw⟩)
    obtain ⟨s2, a2, h2, ha2, he2, hs2, hj2, hq2⟩ := awaitsResult_failure s k a x haw hw
    exact ⟨s2, a2, h2, ha2, he2, hq2, hs2, hj2⟩

/-- Witness for C10: after a first call of `createRoom` has been cancelled,
`createRoom` is called again on the same view; `room2` is reported available,
create succeeds and the UI thread runs the queued closure, with `autoJoin` not
set. -/
theorem createRoom_success_takes_one_branch_witness :
    createRun newCreateMUCRoomView scheduleSecondCall = some stateSecondCall
      ∧ stateSecondCall.attempts[1]? = some (attemptRoomCreated exampleRoom2)
      ∧ (attemptRoomCreated exampleRoom2).successViews = [(exampleAccount, exampleRoom2)]
      ∧ (attemptRoomCreated exampleRoom2).joinRooms = []
      ∧ (attemptRoomCreated exampleRoom2).errors = [] :=
  ⟨rfl, rfl, rfl, rfl,
   ((createRoom_success_takes_one_branch scheduleSecondCall stateSecondCall 1
      (attemptRoomCreated exampleRoom2) rfl rfl).1 (by decide)).2.1⟩

/-! ## The auto-join flag -/

/-- The last value of two sequences of calls in a row. -/
theorem getLastD_append_bool (fs gs : List Bool) (d : Bool) :
    (fs ++ gs).getLastD d = gs.getLastD (fs.getLastD d) := by
  induction fs generalizing d with
  | nil => rfl
  | cons f fs ih =>
      cases gs with
      | nil => simp
      | cons g gs =>
          have h1 := ih f
          cases fs with
          | nil => simp [List.getLastD]
          | cons f2 fs2 =>
              simp only [List.cons_append, List.getLastD_cons] at h1 ⊢
              exact h1

/-- C11, as stated, fails: the flag is not sampled when the call starts. Two
runs start a call of `createRoom` on a new view, both with `autoJoin` not set
at the start. In the first no call of `updateAutoJoinValue` is made and the
success view is shown. In the second `updateAutoJoinValue(true)` is called
after the start and before the create result arrives, and the join is started
instead. -/
theorem autoJoin_toggle_after_start_changes_branch :
    (∃ s0, createRun newCreateMUCRoomView [CreateEvent.createRoom exampleAccount exampleRoom]
        = some s0 ∧ s0.autoJoin = false)
      ∧ (∃ s a, createRun newCreateMUCRoomView scheduleRoomCreated = some s
          ∧ s.attempts[0]? = some a
          ∧ a.successViews = [(exampleAccount, exampleRoom)] ∧ a.joinRooms = [])
      ∧ (∃ s a, createRun newCreateMUCRoomView scheduleToggledWhileCreating = some s
          ∧ s.attempts[0]? = some a
          ∧ a.successViews = [] ∧ a.joinRooms = [(exampleAccount, exampleRoom)]) :=
  ⟨⟨_, rfl, rfl⟩, ⟨_, _, rfl, rfl, rfl, rfl⟩, ⟨_, _, rfl, rfl, rfl, rfl⟩⟩

/-- C11, amended: the flag is sampled once, when `onCreateRoomFinished` reads it.
For every state reached from a new view in which a call `a` (number `k`) of
`createRoom` awaits the result of create, every sequence `fs` of
`updateAutoJoinValue` calls made before the result is received, every sequence
`gs` made after the result has been received and before the success callback
reads the flag, and every sequence `hs` made after that read and before the UI
thread runs the queued closure: the whole schedule is enabled, and the branch
taken is the one of the flag's value when it is read, which is the last value
of `fs ++ gs` (the value at state `s` when both are empty); the calls `hs`
change the flag but not the branch. -/
theorem autoJoin_sampled_when_read (es : List CreateEvent) (s : mucCreateRoomView) (k : Nat)
    (a : CreateAttempt) (fs gs hs : List Bool)
    (h : createRun newCreateMUCRoomView es = some s) (ha : s.attempts[k]? = some a)
    (hw : a.creator = CreatorPC.waiting) :
    ∃ s1 s2 s3 s4 s5 s6 a6,
      createRun s (autoJoinToggles fs) = some s1
        ∧ createStep s1 (CreateEvent.attempt k (AttemptEvent.creatorRecv none)) = some s2
        ∧ createRun s2 (autoJoinToggles gs) = some s3
        ∧ createStep s3 (CreateEvent.attempt k AttemptEvent.creatorRun) = some s4
        ∧ createRun s4 (autoJoinToggles hs) = some s5
        ∧ createRun s5 (List.replicate (s.uiQueue.length + 1) CreateEvent.uiRun) = some s6
        ∧ s3.autoJoin = (fs ++ gs).getLastD s.autoJoin
        ∧ s5.autoJoin = hs.getLastD s3.autoJoin
        ∧ s6.attempts[k]? = some a6 ∧ a6.errors = []
        ∧ (s3.autoJoin = true → a6.joinRooms = [(a.ca, a.roomID)] ∧ a6.successViews = [])
        ∧ (s3.autoJoin = false →
            a6.successViews = [(a.ca, a.roomID)] ∧ a6.joinRooms = []) := by
  obtain ⟨haw, _⟩ := awaitsResult_run es s k a h ha (Or.inl hw)
  obtain ⟨s1, h1, haj1, hfr1⟩ := createRun_autoJoinToggles fs s
  obtain ⟨haw1, hq1⟩ := awaitsResult_of_withoutAutoJoin s s1 k a hfr1 haw
  obtain ⟨s2, h2, haw2, haj2, hq2⟩ := awaitsResult_recv s1 k a none haw1 hw
  obtain ⟨s3, h3, haj3, hfr3⟩ := createRun_autoJoinToggles gs s2
  obtain ⟨haw3, hq3⟩ := awaitsResult_of_withoutAutoJoin s2 s3 k _ hfr3 haw2
  obtain ⟨s4, s5, s6, h4, h5, h6, haj5, _, ha6⟩ := awaitsResult_success s3 k _ hs haw3 rfl
  obtain ⟨_, he, hsv, hj, _⟩ := haw
  obtain ⟨r1, r2, r3⟩ := runUITask_successTask a s3.autoJoin he hsv hj
  refine ⟨s1, s2, s3, s4, s5, s6, _, h1, h2, h3, h4, h5, ?_, ?_, haj5, ha6, r1, r2, r3⟩
  · rw [hq3, hq2, hq1] at h6
    exact h6
  · rw [haj3, haj2, haj1, getLastD_append_bool]

/-- Witness for C11 amended: `room1` is being created with `autoJoin` not set at
the start; `updateAutoJoinValue(true)` is called before the result is
received, `updateAutoJoinValue(false)` between the receipt and the read, and
`updateAutoJoinValue(true)` after the read: the success view is shown. -/
theorem autoJoin_sampled_when_read_witness :
    createRun newCreateMUCRoomView scheduleRoomCreating = some stateRoomCreating
      ∧ ∃ s1 s2 s3 s4 s5 s6 a6,
        createRun stateRoomCreating (autoJoinToggles [true]) = some s1
          ∧ createStep s1 (CreateEvent.attempt 0 (AttemptEvent.creatorRecv none)) = some s2
          ∧ createRun s2 (autoJoinToggles [false]) = some s3
          ∧ createStep s3 (CreateEvent.attempt 0 AttemptEvent.creatorRun) = some s4
          ∧ createRun s4 (autoJoinToggles [true]) = some s5
          ∧ createRun s5 [CreateEvent.uiRun] = some s6
          ∧ s3.autoJoin = false ∧ s5.autoJoin = true
          ∧ s6.attempts[0]? = some a6
          ∧ a6.successViews = [(exampleAccount, exampleRoom)] ∧ a6.joinRooms = [] := by
  refine ⟨rfl, ?_⟩
  obtain ⟨s1, s2, s3, s4, s5, s6, a6, h1, h2, h3, h4, h5, h6, h7, h8, h9, _, _, h12⟩ :=
    autoJoin_sampled_when_read scheduleRoomCreating stateRoomCreating 0
      (attemptRoomCreating exampleRoom) [true] [false] [true] rfl rfl rfl
  have h7b : s3.autoJoin = false := h7
  have h8b : s5.autoJoin = true := by rw [h8]; rfl
  exact ⟨s1, s2, s3, s4, s5, s6, a6, h1, h2, h3, h4, h5, h6, h7b, h8b, h9, h12 h7b⟩

/-! ## Cancellation of the creation view -/

/-- A property of the view that every enabled step of a class of events
preserves holds after every schedule of such events. -/
theorem createRun_preserves (P : mucCreateRoomView → Prop) (ok : CreateEvent → Prop)
    (hstep : ∀ s s1 e, P s → ok e → createStep s e = some s1 → P s1) :
    ∀ es s s1, P s → (∀ e ∈ es, ok e) → createRun s es = some s1 → P s1 := by
  intro es
  induction es with
  | nil =>
      intro s s1 hp _ h
      simp only [createRun, Option.some.injEq] at h
      subst h
      exact hp
  | cons e es ih =>
      intro s s1 hp hok h
      simp only [createRun] at h
      cases hs : createStep s e with
      | none => simp [hs] at h
      | some w =>
          rw [hs] at h
          exact ih w s1 (hstep s w e hp (hok e (by simp)) hs)
            (fun e2 he2 => hok e2 (List.mem_cons_of_mem _ he2)) h

/-- The view after `onCancel`: the cancel field is nil; the flag, the calls and
the queue are as before. -/
theorem createStep_onCancel (s s1 : mucCreateRoomView)
    (hs : createStep s CreateEvent.onCancel = some s1) :
    s1.cancel = none ∧ s1.attempts = s.attempts ∧ s1.uiQueue = s.uiQueue
      ∧ s1.autoJoin = s.autoJoin := by
  simp only [createStep, mucCreateRoomView.onCancel] at hs
  cases hc : s.cancel with
  | none =>
      simp [hc] at hs
      subst hs
      exact ⟨rfl, rfl, rfl, rfl⟩
  | some c =>
      cases hb : s.cancelChannels[c]? with
      | none => simp [hc, hb] at hs
      | some buf =>
          simp [hc, hb] at hs
          obtain ⟨_, rfl⟩ := hs
          exact ⟨rfl, rfl, rfl, rfl⟩

/-- Only `createRoom` and `onCancel` assign the cancel field. -/
theorem createStep_cancel_eq (s s1 : mucCreateRoomView) (e : CreateEvent)
    (hcr : ∀ ca roomID, e ≠ CreateEvent.createRoom ca roomID) (hoc : e ≠ CreateEvent.onCancel)
    (hs : createStep s e = some s1) : s1.cancel = s.cancel := by
  cases e with
  | createRoom ca roomID => exact absurd rfl (hcr ca roomID)
  | onCancel => exact absurd rfl hoc
  | updateAutoJoinValue f =>
      simp only [createStep, mucCreateRoomView.updateAutoJoinValue, Option.some.injEq] at hs
      subst hs
      by_cases hf : s.autoJoin = f <;> simp [hf]
  | uiRun =>
      simp only [createStep] at hs
      cases hq : s.uiQueue with
      | nil => simp [hq] at hs
      | cons p rest =>
          obtain ⟨j, t⟩ := p
          rw [hq] at hs
          simp only at hs
          cases ha : s.attempts[j]? with
          | none => simp [ha] at hs
          | some a =>
              rw [ha] at hs
              simp only [Option.some.injEq] at hs
              subst hs
              cases t <;> rfl
  | attempt j le =>
      obtain ⟨_, _, _, _, _, _, _, _, hc, _⟩ := createStep_attempt s s1 j le hs
      exact hc

/-- The invariant of the cancel field is preserved by every step. -/
theorem cancelInv_step (s s1 : mucCreateRoomView) (e : CreateEvent) (hinv : CancelInv s)
    (hs : createStep s e = some s1) : CancelInv s1 := by
  intro c hc1
  cases e with
  | createRoom ca roomID =>
      simp only [createStep, mucCreateRoomView.createRoom, Option.some.injEq] at hs
      subst hs
      simp only [Option.some.injEq] at hc1
      subst hc1
      exact List.getElem?_concat_length _ _
  | onCancel =>
      rw [(createStep_onCancel s s1 hs).1] at hc1
      cases hc1
  | updateAutoJoinValue f =>
      simp only [createStep, mucCreateRoomView.updateAutoJoinValue, Option.some.injEq] at hs
      subst hs
      by_cases hf : s.autoJoin = f
      · simp only [hf, if_true] at hc1 ⊢
        exact hinv c hc1
      · simp only [hf, if_false] at hc1 ⊢
        exact hinv c hc1
  | uiRun =>
      simp only [createStep] at hs
      cases hq : s.uiQueue with
      | nil => simp [hq] at hs
      | cons p rest =>
          obtain ⟨j, t⟩ := p
          rw [hq] at hs
          simp only at hs
          cases ha : s.attempts[j]? with
          | none => simp [ha] at hs
          | some a =>
              rw [ha] at hs
              simp only [Option.some.injEq] at hs
              subst hs
              cases t <;> exact hinv c hc1
  | attempt j le =>
      obtain ⟨_, _, _, _, _, _, _, _, hc, _, _, _, hch⟩ := createStep_attempt s s1 j le hs
      rw [hc] at hc1
      have h0 := hinv c hc1
      rcases hch with hch | ⟨c2, x, rest, _, hb, hch⟩
      · rw [hch]
        exact h0
      · rw [hch]
        by_cases hcc : c2 = c
        · subst hcc
          rw [h0] at hb
          cases hb
        · rw [List.getElem?_set_ne hcc]
          exact h0

/-- In every state reached from the new view the cancel field, when it is not
nil, names a channel that has been made and is empty. -/
theorem cancelInv_run (es : List CreateEvent) (s : mucCreateRoomView)
    (h : createRun newCreateMUCRoomView es = some s) : CancelInv s :=
  createRun_preserves CancelInv (fun _ => True)
    (fun s s1 e hp _ hs => cancelInv_step s s1 e hp hs) es newCreateMUCRoomView s
    (by intro c hc; cases hc) (fun _ _ => trivial) h

/-- With a non-nil cancel field whose channel is empty, `onCancel` puts one
signal into that channel, sets the field to nil and calls
`v.dialog.Destroy()`. -/
theorem onCancel_of_cancel_some (s : mucCreateRoomView) (c : Nat) (hc : s.cancel = some c)
    (hb : s.cancelChannels[c]? = some []) :
    createStep s CreateEvent.onCancel
      = some { s with cancelChannels := s.cancelChannels.set c [true], cancel := none,
                      dialogDestroyed := s.dialogDestroyed + 1 } := by
  simp [createStep, mucCreateRoomView.onCancel, hc, hb]

/-- With a nil cancel field, `onCancel` sends nothing and changes nothing; it
only calls `v.dialog.Destroy()`. -/
theorem onCancel_of_cancel_nil (s : mucCreateRoomView) (hc : s.cancel = none) :
    createStep s CreateEvent.onCancel
      = some { s with dialogDestroyed := s.dialogDestroyed + 1 } := by
  simp [createStep, mucCreateRoomView.onCancel, hc]

/-- In every state that satisfies the invariant of the cancel field, `onCancel`
is enabled. -/
theorem onCancel_enabled (s : mucCreateRoomView) (hinv : CancelInv s) :
    ∃ s1, createStep s CreateEvent.onCancel = some s1 := by
  cases hc : s.cancel with
  | none => exact ⟨_, onCancel_of_cancel_nil s hc⟩
  | some c => exact ⟨_, onCancel_of_cancel_some s c hc (hinv c hc)⟩

/-- A non-nil cancel field stays non-nil as long as `onCancel` is not called. -/
theorem cancel_some_run (es : List CreateEvent) (s s1 : mucCreateRoomView)
    (hc : s.cancel ≠ none) (hno : CreateEvent.onCancel ∉ es)
    (h : createRun s es = some s1) : s1.cancel ≠ none := by
  refine createRun_preserves (fun v => v.cancel ≠ none) (fun e => e ≠ CreateEvent.onCancel)
    ?_ es s s1 hc (fun e he heq => hno (heq ▸ he)) h
  intro v v1 e hp hok hs
  by_cases hcr : ∃ ca roomID, e = CreateEvent.createRoom ca roomID
  · obtain ⟨ca, roomID, rfl⟩ := hcr
    simp only [createStep, mucCreateRoomView.createRoom, Option.some.injEq] at hs
    subst hs
    simp
  · have h0 := createStep_cancel_eq v v1 e
      (fun ca roomID heq => hcr ⟨ca, roomID, heq⟩) hok hs
    rw [h0]
    exact hp

/-- A nil cancel field stays nil as long as `createRoom` is not called. -/
theorem cancel_nil_run (es : List CreateEvent) (s s1 : mucCreateRoomView)
    (hc : s.cancel = none) (hno : ∀ ca roomID, CreateEvent.createRoom ca roomID ∉ es)
    (h : createRun s es = some s1) : s1.cancel = none := by
  refine createRun_preserves (fun v => v.cancel = none)
    (fun e => ∀ ca roomID, e ≠ CreateEvent.createRoom ca roomID)
    ?_ es s s1 hc (fun e he ca roomID heq => hno ca roomID (heq ▸ he)) h
  intro v v1 e hp hok hs
  by_cases hoc : e = CreateEvent.onCancel
  · subst hoc
    exact (createStep_onCancel v v1 hs).1
  · rw [createStep_cancel_eq v v1 e hok hoc hs]
    exact hp

/-- As long as `createRoom` has not been called on a new view, the cancel field
is nil, no channel has been made and no call exists. -/
theorem noCreateRoom_run (es : List CreateEvent) (s : mucCreateRoomView)
    (hno : ∀ ca roomID, CreateEvent.createRoom ca roomID ∉ es)
    (h : createRun newCreateMUCRoomView es = some s) :
    s.cancel = none ∧ s.cancelChannels = [] ∧ s.attempts = [] := by
  refine createRun_preserves
    (fun v => v.cancel = none ∧ v.cancelChannels = [] ∧ v.attempts = [])
    (fun e => ∀ ca roomID, e ≠ CreateEvent.createRoom ca roomID)
    ?_ es newCreateMUCRoomView s ⟨rfl, rfl, rfl⟩
    (fun e he ca roomID heq => hno ca roomID (heq ▸ he)) h
  intro v v1 e hp hok hs
  obtain ⟨hp1, hp2, hp3⟩ := hp
  cases e with
  | createRoom ca roomID => exact absurd rfl (hok ca roomID)
  | onCancel =>
      rw [onCancel_of_cancel_nil v hp1] at hs
      simp only [Option.some.injEq] at hs
      subst hs
      exact ⟨hp1, hp2, hp3⟩
  | updateAutoJoinValue f =>
      simp only [createStep, mucCreateRoomView.updateAutoJoinValue, Option.some.injEq] at hs
      subst hs
      by_cases hf : v.autoJoin = f <;> simp [hf, hp1, hp2, hp3]
  | uiRun =>
      simp only [createStep] at hs
      cases hq : v.uiQueue with
      | nil => simp [hq] at hs
      | cons p rest =>
          obtain ⟨j, t⟩ := p
          simp [hq, hp3] at hs
  | attempt j le =>
      simp [createStep, hp3] at hs

/-- C12, as stated, fails in the Creating state: the goroutine of
`account.createRoom` has no cancel branch. `onCancel` is called while the
result of create for `room1` is awaited, and puts its signal into the channel;
when create then succeeds the success view is still shown, and when create
then fails `errCreateRoomFailed` is still reported on the error channel. -/
theorem cancel_while_creating_still_resolves :
    (∃ s a, createRun newCreateMUCRoomView (scheduleRoomCreating ++ [CreateEvent.onCancel])
          = some s
        ∧ s.cancel = none ∧ s.cancelChannels = [[true]] ∧ s.attempts[0]? = some a
        ∧ a.creator = CreatorPC.waiting ∧ a.successViews = [] ∧ a.errors = [])
      ∧ (∃ s a, createRun newCreateMUCRoomView scheduleCancelledWhileCreating = some s
          ∧ s.attempts[0]? = some a
          ∧ a.successViews = [(exampleAccount, exampleRoom)])
      ∧ (∃ s a, createRun newCreateMUCRoomView scheduleCancelledThenCreateFails = some s
          ∧ s.attempts[0]? = some a
          ∧ a.errors = [GoError.errCreateRoomFailed]) :=
  ⟨⟨_, _, rfl, rfl, rfl, rfl, rfl, rfl, rfl⟩, ⟨_, _, rfl, rfl, rfl⟩, ⟨_, _, rfl, rfl, rfl⟩⟩

/-- C12, amended: cancellation is observed only by the two `select` statements
of the Checking state. For every schedule of the creation view started on a
new view, with any number of calls of `createRoom`, and for every call `a`
(number `k`) made so far: once the `select` of `createRoom` or the `select` of
`checkIfRoomExists` of the call has received a cancellation signal, create is
not called for it, no failure is reported on its error channel and no success
outcome of it is queued or run, whatever arrives later. While the call awaits
the result of create (Creating), `onCancel` is enabled and stops nothing:
after it a successful result still leads to one of the two success outcomes
and a failed result still reports `errCreateRoomFailed`. -/
theorem cancel_observed_only_while_checking (es : List CreateEvent) (s : mucCreateRoomView)
    (k : Nat) (a : CreateAttempt) (h : createRun newCreateMUCRoomView es = some s)
    (ha : s.attempts[k]? = some a) :
    ((CreateEvent.attempt k AttemptEvent.outerRecvCancel ∈ es
          ∨ CreateEvent.attempt k AttemptEvent.innerRecvCancel ∈ es) →
        a.createRoomCalls = [] ∧ a.errors = [] ∧ tasksOf k s.uiQueue = []
          ∧ a.successViews = [] ∧ a.joinRooms = [])
      ∧ (a.creator = CreatorPC.waiting →
          ∃ s1, createStep s CreateEvent.onCancel = some s1 ∧ s1.cancel = none
            ∧ (∃ s2 s3 s4 a4,
                createStep s1 (CreateEvent.attempt k (AttemptEvent.creatorRecv none)) = some s2
                ∧ createStep s2 (CreateEvent.attempt k AttemptEvent.creatorRun) = some s3
                ∧ createRun s3 (List.replicate (s.uiQueue.length + 1) CreateEvent.uiRun)
                    = some s4
                ∧ s4.attempts[k]? = some a4
                ∧ (a4.successViews = [(a.ca, a.roomID)] ∨ a4.joinRooms = [(a.ca, a.roomID)]))
            ∧ (∀ x, ∃ s2 s3 a3,
                createStep s1 (CreateEvent.attempt k (AttemptEvent.creatorRecv (some x)))
                    = some s2
                ∧ createStep s2 (CreateEvent.attempt k AttemptEvent.creatorRun) = some s3
                ∧ s3.attempts[k]? = some a3
                ∧ a3.errors = [GoError.errCreateRoomFailed])) := by
  constructor
  · intro hm
    have hinv := attemptInv_run es s k a h ha
    unfold AttemptInv at hinv
    rcases hinv with ⟨⟨_, h2, h3, h4, h5, h6⟩, _⟩ | ⟨_, _, ho, hi, _⟩
    · exact ⟨h2, h3, h4, h5, h6⟩
    · rcases hm with hm | hm
      · exact absurd ((mem_attemptEvents k es _).mpr hm) ho
      · exact absurd ((mem_attemptEvents k es _).mpr hm) hi
  · intro hw
    obtain ⟨haw, _⟩ := awaitsResult_run es s k a h ha (Or.inl hw)
    obtain ⟨s1, h1⟩ := onCancel_enabled s (cancelInv_run es s h)
    obtain ⟨hc1, hat1, hq1, _⟩ := createStep_onCancel s s1 h1
    have haw1 : AwaitsResult s1 k a := by
      unfold AwaitsResult at haw ⊢
      rw [hat1, hq1]
      exact haw
    refine ⟨s1, h1, hc1, ?_, ?_⟩
    · obtain ⟨s2, h2, haw2, _, hq2⟩ := awaitsResult_recv s1 k a none haw1 hw
      obtain ⟨s3, s3b, s4, h3, h3b, h4, _, _, ha4⟩ := awaitsResult_success s2 k _ [] haw2 rfl
      simp only [autoJoinToggles, List.map_nil, createRun, Option.some.injEq] at h3b
      subst h3b
      rw [hq2, hq1] at h4
      obtain ⟨_, he, hs, hj, _⟩ := haw
      obtain ⟨_, r2, r3⟩ := runUITask_successTask a s2.autoJoin he hs hj
      refine ⟨s2, s3, s4, _, h2, h3, h4, ha4, ?_⟩
      rcases Bool.eq_false_or_eq_true s2.autoJoin with hf | hf
      · exact Or.inr (r2 hf).1
      · exact Or.inl (r3 hf).1
    · intro x
      obtain ⟨s2, h2, haw2, _, _⟩ := awaitsResult_recv s1 k a (some x) haw1 hw
      obtain ⟨s3, a3, h3, ha3, he3, _⟩ := awaitsResult_failure s2 k _ x haw2 rfl
      exact ⟨s2, s3, a3, h2, h3, ha3, he3⟩

/-- Witness for C12 amended: the `select` of `createRoom` receives the
cancellation signal while the check of `room1` is pending. -/
theorem cancel_observed_only_while_checking_witness :
    createRun newCreateMUCRoomView scheduleCancelledWhileChecking
        = some stateCancelledWhileChecking
      ∧ stateCancelledWhileChecking.attempts[0]? = some attemptCancelledWhileChecking
      ∧ attemptCancelledWhileChecking.createRoomCalls = []
      ∧ attemptCancelledWhileChecking.errors = []
      ∧ attemptCancelledWhileChecking.successViews = []
      ∧ attemptCancelledWhileChecking.joinRooms = [] :=
  ⟨rfl, rfl,
   ((cancel_observed_only_while_checking scheduleCancelledWhileChecking
      stateCancelledWhileChecking 0 attemptCancelledWhileChecking rfl rfl).1
        (Or.inl (by decide))).1,
   rfl, rfl, rfl⟩

/-- C15: the cancellation of the creation view is single-shot. For every state
`s` reached from a new view: (1) when `createRoom` has been called and
`onCancel` has not been called since, `v.cancel` is not nil and its channel is
empty, and `onCancel` is enabled, puts exactly one signal into that channel
and sets `v.cancel` to nil; (2) after any `onCancel` and any further schedule
`fs` without a new call of `createRoom`, `v.cancel` is still nil and another
`onCancel` sends no signal and changes no state: the flag, `v.cancel`, every
channel, every call and goroutine and the queue are as before, and it only
calls `v.dialog.Destroy()` once more, which the model records in its trace of
calls; (3) when `createRoom` has not been called, `v.cancel` is nil, no channel
exists, and `onCancel` likewise sends no signal and changes no state. -/
theorem onCancel_single_shot (es es1 es2 fs : List CreateEvent) (ca : account)
    (roomID : jid.Bare) (s s1 s2 : mucCreateRoomView)
    (h : createRun newCreateMUCRoomView es = some s) :
    (es = es1 ++ CreateEvent.createRoom ca roomID :: es2 → CreateEvent.onCancel ∉ es2 →
        ∃ c, s.cancel = some c ∧ s.cancelChannels[c]? = some []
          ∧ createStep s CreateEvent.onCancel
              = some { s with cancelChannels := s.cancelChannels.set c [true],
                              cancel := none,
                              dialogDestroyed := s.dialogDestroyed + 1 })
      ∧ (createStep s CreateEvent.onCancel = some s1 → createRun s1 fs = some s2 →
          (∀ ca2 roomID2, CreateEvent.createRoom ca2 roomID2 ∉ fs) →
            s1.cancel = none ∧ s2.cancel = none
              ∧ createStep s2 CreateEvent.onCancel
                  = some { s2 with dialogDestroyed := s2.dialogDestroyed + 1 })
      ∧ ((∀ ca2 roomID2, CreateEvent.createRoom ca2 roomID2 ∉ es) →
          s.cancel = none ∧ s.cancelChannels = [] ∧ s.attempts = []
            ∧ createStep s CreateEvent.onCancel
                = some { s with dialogDestroyed := s.dialogDestroyed + 1 }) := by
  refine ⟨?_, ?_, ?_⟩
  · intro hes hno
    subst hes
    rw [createRun_append] at h
    cases hw : createRun newCreateMUCRoomView es1 with
    | none => simp [hw] at h
    | some w =>
        rw [hw] at h
        simp only [Option.some_bind, createRun, createStep] at h
        have hc : s.cancel ≠ none :=
          cancel_some_run es2 (w.createRoom ca roomID) s
            (by simp [mucCreateRoomView.createRoom]) hno h
        cases hcs : s.cancel with
        | none => exact absurd hcs hc
        | some c =>
            have hinv : CancelInv s :=
              createRun_preserves CancelInv (fun _ => True)
                (fun v v1 e hp _ hs => cancelInv_step v v1 e hp hs) es2
                (w.createRoom ca roomID) s
                (cancelInv_step w _ (CreateEvent.createRoom ca roomID)
                  (cancelInv_run es1 w hw) rfl)
                (fun _ _ => trivial) h
            have hb := hinv c hcs
            refine ⟨c, rfl, hb, ?_⟩
            exact onCancel_of_cancel_some s c hcs hb
  · intro h1 h2 hno
    have hc1 := (createStep_onCancel s s1 h1).1
    have hc2 := cancel_nil_run fs s1 s2 hc1 hno h2
    exact ⟨hc1, hc2, onCancel_of_cancel_nil s2 hc2⟩
  · intro hno
    obtain ⟨hc, hb, hat⟩ := noCreateRoom_run es s hno h
    exact ⟨hc, hb, hat, onCancel_of_cancel_nil s hc⟩

/-- Witness for C15: `createRoom` is called for `room1`, then `onCancel` twice. -/
theorem onCancel_single_shot_witness :
    createRun newCreateMUCRoomView [CreateEvent.createRoom exampleAccount exampleRoom]
        = some (newCreateMUCRoomView.createRoom exampleAccount exampleRoom)
      ∧ (∃ c, (newCreateMUCRoomView.createRoom exampleAccount exampleRoom).cancel = some c
          ∧ (newCreateMUCRoomView.createRoom exampleAccount exampleRoom).cancelChannels[c]?
              = some []
          ∧ createStep (newCreateMUCRoomView.createRoom exampleAccount exampleRoom)
              CreateEvent.onCancel
              = some { newCreateMUCRoomView.createRoom exampleAccount exampleRoom with
                  cancelChannels :=
                    (newCreateMUCRoomView.createRoom exampleAccount
                      exampleRoom).cancelChannels.set c [true],
                  cancel := none,
                  dialogDestroyed :=
                    (newCreateMUCRoomView.createRoom exampleAccount
                      exampleRoom).dialogDestroyed + 1 })
      ∧ createStep (newCreateMUCRoomView.createRoom exampleAccount exampleRoom)
          CreateEvent.onCancel = some stateCancelledOnce
      ∧ createStep stateCancelledOnce CreateEvent.onCancel
          = some { stateCancelledOnce with dialogDestroyed := 2 } :=
  ⟨rfl,
   (onCancel_single_shot [CreateEvent.createRoom exampleAccount exampleRoom] [] [] []
      exampleAccount exampleRoom
      (newCreateMUCRoomView.createRoom exampleAccount exampleRoom) stateCancelledOnce
      stateCancelledOnce rfl).1 rfl (by simp),
   rfl,
   ((onCancel_single_shot [CreateEvent.createRoom exampleAccount exampleRoom] [] [] []
      exampleAccount exampleRoom
      (newCreateMUCRoomView.createRoom exampleAccount exampleRoom) stateCancelledOnce
      stateCancelledOnce rfl).2.1 rfl rfl (by simp)).2.2⟩

/-! ## The affordances of the lobby after a failed join -/

/-- The nickname entry and the join button after `onJoinFailed`, as a function
of the error. -/
theorem onJoinFailed_affordances (v : roomViewLobby) (e : GoError) :
    (v.onJoinFailed e).nickNameEntrySensitive = true
      ∧ (v.onJoinFailed e).joinButtonSensitive
          = match e with
            | GoError.lobbyErr _ _ GoError.errJoinNickNameConflict => false
            | _ => true := by
  cases e with
  | lobbyErr room n t =>
      by_cases ht : t = GoError.errJoinNickNameConflict
      · subst ht
        by_cases hn : n ∈ v.nickNamesWithConflict <;>
          by_cases hnot : v.notification = true <;>
          simp [roomViewLobby.onJoinFailed, GoError.asMucRoomLobbyErr, hn, hnot,
            roomViewLobby.notifyOnError, roomViewLobby.enableFields,
            roomViewLobby.hideSpinner]
      · cases t <;>
          first
          | exact absurd rfl ht
          | (by_cases hnot : v.notification = true <;>
              simp [roomViewLobby.onJoinFailed, GoError.asMucRoomLobbyErr, hnot,
                roomViewLobby.notifyOnError, roomViewLobby.enableFields,
                roomViewLobby.hideSpinner])
  | _ =>
      by_cases hnot : v.notification = true <;>
        simp [roomViewLobby.onJoinFailed, GoError.asMucRoomLobbyErr, hnot,
          roomViewLobby.notifyOnError, roomViewLobby.enableFields,
          roomViewLobby.hideSpinner]

/-- C14: for every lobby state and every join failure `e`, `onJoinFailed` leaves
the nickname entry sensitive, and leaves the join button sensitive if and only
if `e` is not a nickname-conflict error: after a nickname conflict the button
is insensitive, and after a registration-required failure, a generic failure,
a no-connection failure (wrapped or not) or any other error it is sensitive. -/
theorem onJoinFailed_enables_input_and_join (v : roomViewLobby) (e : GoError)
    (room : jid.Bare) (n msg : String) :
    (v.onJoinFailed e).nickNameEntrySensitive = true
      ∧ ((v.onJoinFailed e).joinButtonSensitive = true
          ↔ ¬ ∃ r k, e = newMUCRoomLobbyErr r k GoError.errJoinNickNameConflict)
      ∧ (v.onJoinFailed (newMUCRoomLobbyErr room n GoError.errJoinNickNameConflict)).joinButtonSensitive
          = false
      ∧ (v.onJoinFailed (newMUCRoomLobbyErr room n GoError.errJoinOnlyMembers)).joinButtonSensitive
          = true
      ∧ (v.onJoinFailed (newMUCRoomLobbyErr room n GoError.errJoinRequestFailed)).joinButtonSensitive
          = true
      ∧ (v.onJoinFailed (newMUCRoomLobbyErr room n GoError.errJoinNoConnection)).joinButtonSensitive
          = true
      ∧ (v.onJoinFailed GoError.errJoinNoConnection).joinButtonSensitive = true
      ∧ (v.onJoinFailed (GoError.other msg)).joinButtonSensitive = true := by
  have hb : ∀ x, (v.onJoinFailed x).joinButtonSensitive
      = match x with
        | GoError.lobbyErr _ _ GoError.errJoinNickNameConflict => false
        | _ => true := fun x => (onJoinFailed_affordances v x).2
  refine ⟨(onJoinFailed_affordances v e).1, ?_, ?_, ?_, ?_, ?_, ?_, ?_⟩
  · rw [hb e]
    constructor
    · intro h
      rintro ⟨r, k, rfl⟩
      simp [newMUCRoomLobbyErr] at h
    · intro h
      split
      · rename_i r k
        exact absurd ⟨r, k, rfl⟩ h
      · rfl
  · rw [hb]; rfl
  · rw [hb]; rfl
  · rw [hb]; rfl
  · rw [hb]; rfl
  · rw [hb]
  · rw [hb]

/-! ## Cancellation of the lobby -/

end Coyim
